import Mathlib

/-!
# DSB1 four-axis drivetrain controller: control-and-protocol pipeline

Shallow embedding of the firmware's C sources
(`Core/Src/motor_frame/uart2_motor_frame.c`, `Core/Src/motor/ax_encoder.c`,
`Core/Src/motor/motor_pid.c`, `Core/Src/speed_ramp/speed_ramp.c`) and theorems
about them.

Conventions of the embedding

* A C array is a `List`; `a[i]` is `a.getD i 0` and `a[i] = v` is `a.set i v`.
  A state is well formed when every array has its declared length.
* `uint8_t` values are naturals below 256; `++` on a `uint8_t` wraps modulo 256.
* `int8_t`, `int16_t`, `int32_t` and `int` values are integers; a conversion to
  one of these types, and every `int`/`int32_t` arithmetic operation, is the
  two's-complement wrap into the type's range (`int` is 32 bits on the target).
* C integer division `/` truncates toward zero (`Int.tdiv`).
* Calls into the HAL that only re-arm an interrupt or start a timer have no
  effect on the modelled state and are left out.
-/

namespace DSB1

/-! ## Machine integers -/

/-- Conversion to `int8_t`: two's-complement wrap into `[-128, 127]`. -/
def int8_t (x : Int) : Int := (x + 128) % 256 - 128

/-- Conversion to `int16_t`: two's-complement wrap into `[-32768, 32767]`. -/
def int16_t (x : Int) : Int := (x + 32768) % 65536 - 32768

/-- Conversion to `int32_t` (also `int`): two's-complement wrap into `[-2^31, 2^31 - 1]`. -/
def int32_t (x : Int) : Int := (x + 2147483648) % 4294967296 - 2147483648

/-! ## `ax_encoder.c`: accumulated positions -/

/-- State of `ax_encoder.c`: `static int32_t s_position[4]`. -/
structure Encoder where
  s_position : List Int
deriving DecidableEq, Repr

/-- Power-on value `s_position[4] = {100,100,100,100}`. -/
def Encoder.init : Encoder := { s_position := [100, 100, 100, 100] }

/-- Function `Encoder_ResetAll`: `for (i = 0; i < 4; i++) s_position[i] = 0;`. -/
def Encoder_ResetAll (e : Encoder) : Encoder :=
  (List.range 4).foldl (fun e i => { e with s_position := e.s_position.set i 0 }) e

/-! ## `uart2_motor_frame.c`: command frame decoder and reset detector -/

def FRAME_LEN : Nat := 11
def FRAME_HEAD : Nat := 0x23
def FRAME_TAIL : Nat := 0x21
def CTRL_INDEX : Nat := 5
def ANGLE_VEL_INDEX : Nat := 6
def TAIL_INDEX : Nat := FRAME_LEN - 1

/-- Enumerators of `RxState_t`; the variable itself is a C enum object, so it is
modelled by its integer value and the `default:` branch of the switch is kept. -/
def RX_WAIT_HEAD : Nat := 0
def RX_RECV_DATA : Nat := 1
def RX_WAIT_TAIL : Nat := 2

/-- File-scope variables of `uart2_motor_frame.c`. -/
structure MotorFrame where
  rxBuf : List Nat
  rxIndex : Nat
  rxState : Nat
  seqBuf : List Nat
  seqPos : Nat
  uart_set_speed : List Int
  uart_angle_velocity : List Int
  trapezoidEnabled : Bool
deriving DecidableEq, Repr

/-- Values of the variables at start-up. -/
def MotorFrame.init : MotorFrame :=
  { rxBuf := List.replicate 11 0
    rxIndex := 0
    rxState := RX_WAIT_HEAD
    seqBuf := [0, 0, 0]
    seqPos := 0
    uart_set_speed := [0, 0, 0, 0]
    uart_angle_velocity := [0, 0, 0, 0]
    trapezoidEnabled := false }

/-- Function `parseFrame(buf)`: copy the payload of a complete frame into the command
variables. -/
def parseFrame (m : MotorFrame) (buf : List Nat) : MotorFrame :=
  let m := (List.range 4).foldl
    (fun m i => { m with uart_set_speed := m.uart_set_speed.set i (int8_t (buf.getD (1 + i) 0)) }) m
  let m := { m with trapezoidEnabled := ((buf.getD CTRL_INDEX 0) &&& 0x01) != 0 }
  (List.range 4).foldl
    (fun m i => { m with
      uart_angle_velocity := m.uart_angle_velocity.set i (int8_t (buf.getD (ANGLE_VEL_INDEX + i) 0)) }) m

/-- Part 1 of `MotorFrame_UART2_RxCallback`: the `"!@!"` detector on the
3-slot ring `seqBuf`/`seqPos`. Returns the new state and whether
`Encoder_ResetAll` was called. -/
def seqDetect (m : MotorFrame) (byte : Nat) : MotorFrame × Bool :=
  let m := { m with seqBuf := m.seqBuf.set m.seqPos byte }
  let m := { m with seqPos := (m.seqPos + 1) % 3 }
  if m.seqBuf.getD ((m.seqPos + 0) % 3) 0 = 0x21 ∧
     m.seqBuf.getD ((m.seqPos + 1) % 3) 0 = 0x40 ∧
     m.seqBuf.getD ((m.seqPos + 2) % 3) 0 = 0x21 then
    ({ m with seqBuf := ((m.seqBuf.set 2 0).set 1 0).set 0 0, seqPos := 0 }, true)
  else (m, false)

/-- Part 2 of `MotorFrame_UART2_RxCallback`: the `switch (rxState)` frame
state machine. -/
def frameSwitch (m : MotorFrame) (byte : Nat) : MotorFrame :=
  if m.rxState = RX_WAIT_HEAD then
    if byte = FRAME_HEAD then
      { m with rxBuf := m.rxBuf.set 0 byte, rxIndex := 1, rxState := RX_RECV_DATA }
    else m
  else if m.rxState = RX_RECV_DATA then
    let m := { m with rxBuf := m.rxBuf.set m.rxIndex byte }
    let m := { m with rxIndex := (m.rxIndex + 1) % 256 }
    if m.rxIndex > TAIL_INDEX - 1 then { m with rxState := RX_WAIT_TAIL } else m
  else if m.rxState = RX_WAIT_TAIL then
    let m :=
      if byte = FRAME_TAIL then
        let m := { m with rxBuf := m.rxBuf.set TAIL_INDEX byte }
        parseFrame m m.rxBuf
      else m
    { m with rxState := RX_WAIT_HEAD }
  else
    { m with rxState := RX_WAIT_HEAD }

/-- Function `MotorFrame_UART2_RxCallback` with the received byte `rxByte` as an
argument: detector first, then the frame state machine. -/
def MotorFrame_UART2_RxCallback (st : MotorFrame × Encoder) (rxByte : Nat) : MotorFrame × Encoder :=
  let byte := rxByte
  let d := seqDetect st.1 byte
  let e := if d.2 then Encoder_ResetAll st.2 else st.2
  (frameSwitch d.1 byte, e)

/-- One call of the callback per byte of the stream, in order. -/
def feed (st : MotorFrame × Encoder) (bytes : List Nat) : MotorFrame × Encoder :=
  bytes.foldl MotorFrame_UART2_RxCallback st

/-- The 11-byte command frame `[0x23, payload (9 bytes), 0x21]`. -/
def frame (payload : List Nat) : List Nat := FRAME_HEAD :: (payload ++ [FRAME_TAIL])

/-- Command variables written by `parseFrame`: target speeds, angle-loop
velocities and the ramp-enable flag. -/
def command (m : MotorFrame) : List Int × List Int × Bool :=
  (m.uart_set_speed, m.uart_angle_velocity, m.trapezoidEnabled)

/-- The arrays of the frame decoder have their declared lengths. -/
def FrameWF (m : MotorFrame) : Prop :=
  m.rxBuf.length = 11 ∧ m.uart_set_speed.length = 4 ∧ m.uart_angle_velocity.length = 4

instance (m : MotorFrame) : Decidable (FrameWF m) := by
  unfold FrameWF
  infer_instance

/-- The detector's ring has its declared length and `seqPos` is a valid slot (0..2). -/
def SeqWF (m : MotorFrame) : Prop :=
  m.seqBuf.length = 3 ∧ m.seqPos < 3

instance (m : MotorFrame) : Decidable (SeqWF m) := by
  unfold SeqWF
  infer_instance

/-- A state with the detector's variables blanked out: what is left are the
frame decoder's variables and the command variables. -/
def dropSeq (m : MotorFrame) : MotorFrame := { m with seqBuf := [], seqPos := 0 }

/-- The detector of `seqDetect` as a function of its own variables only:
ring contents, write position and received byte give the new ring, the new
position and whether `Encoder_ResetAll` is called. -/
def seqStep (buf : List Nat) (pos : Nat) (byte : Nat) : List Nat × Nat × Bool :=
  let d := seqDetect { MotorFrame.init with seqBuf := buf, seqPos := pos } byte
  (d.1.seqBuf, d.1.seqPos, d.2)

/-- A stream of back-to-back command frames, one per payload. -/
def frames : List (List Nat) → List Nat
  | [] => []
  | p :: ps => frame p ++ frames ps

/-- The values `parseFrame` writes for a 9-byte payload: speeds from payload
bytes 0..3, angle velocities from payload bytes 5..8, flag from bit 0 of byte 4. -/
def decoded (p : List Nat) : List Int × List Int × Bool :=
  ((List.range 4).map (fun i => int8_t (p.getD i 0)),
   (List.range 4).map (fun i => int8_t (p.getD (5 + i) 0)),
   (p.getD 4 0).testBit 0)

/-- Control states of the frame decoder that occur at run time: one of the three
enumerators, and in `RX_RECV_DATA` the write index is within the payload (1..9). -/
def FrameInv (m : MotorFrame) : Prop :=
  FrameWF m ∧
  (m.rxState = RX_WAIT_HEAD ∨
   (m.rxState = RX_RECV_DATA ∧ 1 ≤ m.rxIndex ∧ m.rxIndex ≤ 9) ∨
   m.rxState = RX_WAIT_TAIL)

instance (m : MotorFrame) : Decidable (FrameInv m) := by
  unfold FrameInv
  infer_instance

/-! ## `motor_pid.c`: fixed-point PID -/

def INTEGRAL_LIMIT : Int := 100000
def OUTPUT_LIMIT : Int := 1000

/-- Motor identifiers `MOTOR_A .. MOTOR_D` (enumerators 0..3). -/
inductive MotorID where
  | MOTOR_A
  | MOTOR_B
  | MOTOR_C
  | MOTOR_D
deriving DecidableEq, Repr

/-- Integer value of a `MotorID` enumerator, used as array index. -/
def MotorID.toNat : MotorID → Nat
  | .MOTOR_A => 0
  | .MOTOR_B => 1
  | .MOTOR_C => 2
  | .MOTOR_D => 3

/-- Per-motor controller memory `PID_State`. -/
structure PID_State where
  integral : Int
  prev_error : Int
deriving DecidableEq, Repr

instance : Inhabited PID_State := ⟨{ integral := 0, prev_error := 0 }⟩

/-- Gains `PID_Params`, stored times 100. -/
structure PID_Params where
  Kp : Int
  Ki : Int
  Kd : Int
deriving DecidableEq, Repr

/-- The shared gains `pid_params = { .Kp = 5500, .Ki = 800, .Kd = 00 }`. -/
def pid_params : PID_Params := { Kp := 5500, Ki := 800, Kd := 0 }

/-- Globals of `motor_pid.c`. -/
structure MotorPid where
  motor_states : List PID_State
  target_speeds : List Int
  real_speeds : List Int
  pwm_outputs : List Int
deriving DecidableEq, Repr

/-- The arrays of `motor_pid.c` have their declared length 4. -/
def PidWF (g : MotorPid) : Prop :=
  g.motor_states.length = 4 ∧ g.target_speeds.length = 4 ∧ g.real_speeds.length = 4 ∧
  g.pwm_outputs.length = 4

instance (g : MotorPid) : Decidable (PidWF g) := by
  unfold PidWF
  infer_instance

/-- Function `PID_Init`: the loop clears all per-motor state (the timer start has no
effect on the modelled variables). -/
def PID_Init (g : MotorPid) : MotorPid :=
  (List.range 4).foldl (fun g i =>
    let g := { g with motor_states :=
      g.motor_states.set i { (g.motor_states.getD i default) with integral := 0 } }
    let g := { g with motor_states :=
      g.motor_states.set i { (g.motor_states.getD i default) with prev_error := 0 } }
    let g := { g with target_speeds := g.target_speeds.set i 0 }
    let g := { g with real_speeds := g.real_speeds.set i 0 }
    { g with pwm_outputs := g.pwm_outputs.set i 0 }) g

/-- Body of `PID_Control` on the selected `PID_State` (`state = &motor_states[id]`):
all arithmetic is 32-bit `int` arithmetic. Returns the updated state and the
return value. -/
def PID_Control_state (state : PID_State) (setpoint real_speed : Int) : PID_State × Int :=
  -- 1. error
  let error := int32_t (setpoint - real_speed)
  -- 2. integral with limit
  let state := { state with integral := int32_t (state.integral + error) }
  let state :=
    if state.integral > INTEGRAL_LIMIT then { state with integral := INTEGRAL_LIMIT }
    else if state.integral < -INTEGRAL_LIMIT then { state with integral := -INTEGRAL_LIMIT }
    else state
  -- 3. derivative
  let derivative := int32_t (error - state.prev_error)
  -- 4. PID formula
  let output := Int.tdiv
    (int32_t (int32_t (int32_t (pid_params.Kp * error) + int32_t (pid_params.Ki * state.integral))
      + int32_t (pid_params.Kd * derivative))) 100
  -- 5. output limit
  let output :=
    if output > OUTPUT_LIMIT then OUTPUT_LIMIT
    else if output < -OUTPUT_LIMIT then -OUTPUT_LIMIT
    else output
  -- 6. remember the error
  let state := { state with prev_error := error }
  (state, output)

/-- Function `PID_Control(id, setpoint, real_speed)`. -/
def PID_Control (g : MotorPid) (id : MotorID) (setpoint real_speed : Int) : MotorPid × Int :=
  let r := PID_Control_state (g.motor_states.getD id.toNat default) setpoint real_speed
  ({ g with motor_states := g.motor_states.set id.toNat r.1 }, r.2)

/-- A sequence of `PID_Control` calls `(id, setpoint, real_speed)`; returns the final
globals and the list of returned outputs in call order. -/
def pidRun (g : MotorPid) : List (MotorID × Int × Int) → MotorPid × List Int
  | [] => (g, [])
  | c :: cs =>
    let r := PID_Control g c.1 c.2.1 c.2.2
    let rest := pidRun r.1 cs
    (rest.1, r.2 :: rest.2)

/-- Saturation of the specification: clamp `x` to the symmetric range `[-L, L]`. -/
def clampSym (L x : Int) : Int := max (-L) (min L x)

/-- The control law as the specification words it, in exact (unbounded) integer
arithmetic: `error = setpoint - measured`, `integral += error` clamped to
`±INTEGRAL_LIMIT`, `derivative = error - previous_error`,
`raw = (Kp*error + Ki*integral + Kd*derivative) / SCALE` truncating toward zero,
`output = clamp(raw, ±OUTPUT_LIMIT)`, `previous_error = error`. -/
def PID_step_spec (state : PID_State) (setpoint measured : Int) : PID_State × Int :=
  let error := setpoint - measured
  let integral := clampSym 100000 (state.integral + error)
  let derivative := error - state.prev_error
  let raw := Int.tdiv (5500 * error + 800 * integral + 0 * derivative) 100
  ({ integral := integral, prev_error := error }, clampSym 1000 raw)

/-! ## `speed_ramp.c`: trapezoidal ramp -/

def TIMER_FREQ_HZ : Int := 10
def ACC_RPM_PER_SEC : Int := 1
def SCALE_MRPM : Int := 1000

/-- The derived step
`STEP_MRPM = (ACC_RPM_PER_SEC * SCALE_MRPM + TIMER_FREQ_HZ / 2) / TIMER_FREQ_HZ`. -/
def STEP_MRPM : Int :=
  Int.tdiv (ACC_RPM_PER_SEC * SCALE_MRPM + Int.tdiv TIMER_FREQ_HZ 2) TIMER_FREQ_HZ

/-- State of `speed_ramp.c`: `static int32_t target_mrpm[4]`. -/
structure SpeedRamp where
  target_mrpm : List Int
deriving DecidableEq, Repr

/-- New value of `cur_m` computed by one pass of the loop body of `SpeedRamp_Update`
from the commanded speed `uart_set_speed[i]` and the old `target_mrpm[i]`. -/
def rampNext (trapezoidEnabled : Bool) (set_speed : Int) (target : Int) : Int :=
  let goal_m := int32_t (int32_t set_speed * SCALE_MRPM)
  let cur_m := target
  if trapezoidEnabled then
    let diff := int32_t (goal_m - cur_m)
    if diff > STEP_MRPM then int32_t (cur_m + STEP_MRPM)
    else if diff < -STEP_MRPM then int32_t (cur_m - STEP_MRPM)
    else goal_m
  else goal_m

/-- Function `SpeedRamp_Update`: for each of the four motors compute the new `cur_m`,
store it in `target_mrpm[i]` and store `(int16_t)(cur_m / SCALE_MRPM)` in
`target_speeds[i]`. -/
def SpeedRamp_Update (m : MotorFrame) (s : SpeedRamp × MotorPid) : SpeedRamp × MotorPid :=
  (List.range 4).foldl (fun s i =>
    let cur_m := rampNext m.trapezoidEnabled (m.uart_set_speed.getD i 0) (s.1.target_mrpm.getD i 0)
    ({ s.1 with target_mrpm := s.1.target_mrpm.set i cur_m },
     { s.2 with target_speeds := s.2.target_speeds.set i (int16_t (Int.tdiv cur_m SCALE_MRPM)) })) s

/-- The saturation idiom of `motor_pid.c`:
`if (x > L) x = L; else if (x < -L) x = -L;`. -/
def saturate (L x : Int) : Int :=
  if x > L then L else if x < -L then -L else x

/-- Zero-initialised globals of `motor_pid.c` (C static storage). -/
def MotorPid.init : MotorPid :=
  { motor_states := List.replicate 4 { integral := 0, prev_error := 0 }
    target_speeds := [0, 0, 0, 0]
    real_speeds := [0, 0, 0, 0]
    pwm_outputs := [0, 0, 0, 0] }

/-- The state after `n` successive calls of `SpeedRamp_Update` while the command
variables stay as in `m`. -/
def rampRun (m : MotorFrame) (n : Nat) (s : SpeedRamp × MotorPid) : SpeedRamp × MotorPid :=
  Nat.iterate (SpeedRamp_Update m) n s

/-! ## `ax_encoder.c`: sampling the hardware counters -/

/-- The four timer handles used in encoder mode. -/
inductive TimHandle where
  | htim2
  | htim3
  | htim4
  | htim5
deriving DecidableEq, Repr

/-- The `CNT` registers of the four timers. -/
structure Timers where
  cnt2 : Nat
  cnt3 : Nat
  cnt4 : Nat
  cnt5 : Nat
deriving DecidableEq, Repr

/-- Macro `__HAL_TIM_GET_COUNTER(htim)`: the counter register of the timer. -/
def Timers.get (t : Timers) : TimHandle → Nat
  | .htim2 => t.cnt2
  | .htim3 => t.cnt3
  | .htim4 => t.cnt4
  | .htim5 => t.cnt5

/-- Macro `__HAL_TIM_SET_COUNTER(htim, v)`: write the counter register of the timer. -/
def Timers.set (t : Timers) (htim : TimHandle) (v : Nat) : Timers :=
  match htim with
  | .htim2 => { t with cnt2 := v }
  | .htim3 => { t with cnt3 := v }
  | .htim4 => { t with cnt4 := v }
  | .htim5 => { t with cnt5 := v }

/-- Function `Encoder_Read(htim)`: read the counter as `int16_t`, zero the counter,
return the value read. -/
def Encoder_Read (t : Timers) (htim : TimHandle) : Timers × Int :=
  let count := int16_t (t.get htim)
  let t := t.set htim 0
  (t, count)

/-- Function `GetEncoder_A`: `delta = Encoder_Read(&htim2); s_position[0] += delta;
return delta;`. -/
def GetEncoder_A (st : Encoder × Timers) : (Encoder × Timers) × Int :=
  let r := Encoder_Read st.2 .htim2
  let delta := r.2
  (({ st.1 with s_position := st.1.s_position.set 0 (int32_t (st.1.s_position.getD 0 0 + delta)) },
    r.1), delta)

/-- Function `GetEncoder_B`, on `htim3` and `s_position[1]`. -/
def GetEncoder_B (st : Encoder × Timers) : (Encoder × Timers) × Int :=
  let r := Encoder_Read st.2 .htim3
  let delta := r.2
  (({ st.1 with s_position := st.1.s_position.set 1 (int32_t (st.1.s_position.getD 1 0 + delta)) },
    r.1), delta)

/-- Function `GetEncoder_C`, on `htim4` and `s_position[2]`. -/
def GetEncoder_C (st : Encoder × Timers) : (Encoder × Timers) × Int :=
  let r := Encoder_Read st.2 .htim4
  let delta := r.2
  (({ st.1 with s_position := st.1.s_position.set 2 (int32_t (st.1.s_position.getD 2 0 + delta)) },
    r.1), delta)

/-- Function `GetEncoder_D`, on `htim5` and `s_position[3]`. -/
def GetEncoder_D (st : Encoder × Timers) : (Encoder × Timers) × Int :=
  let r := Encoder_Read st.2 .htim5
  let delta := r.2
  (({ st.1 with s_position := st.1.s_position.set 3 (int32_t (st.1.s_position.getD 3 0 + delta)) },
    r.1), delta)

/-- Function `GetEncoder_Position(motor_id)`:
`if (motor_id > ENCODER_MOTOR_D) return 0; return s_position[motor_id] / 100;`. -/
def GetEncoder_Position (e : Encoder) (motor_id : Nat) : Int :=
  if motor_id > 3 then 0 else Int.tdiv (e.s_position.getD motor_id 0) 100

/-- The sampling function of a motor and the timer it reads. -/
def GetEncoder (id : MotorID) : (Encoder × Timers) → (Encoder × Timers) × Int :=
  match id with
  | .MOTOR_A => GetEncoder_A
  | .MOTOR_B => GetEncoder_B
  | .MOTOR_C => GetEncoder_C
  | .MOTOR_D => GetEncoder_D

/-- The timer handle a motor's sampling function reads. -/
def timerOf : MotorID → TimHandle
  | .MOTOR_A => .htim2
  | .MOTOR_B => .htim3
  | .MOTOR_C => .htim4
  | .MOTOR_D => .htim5

/-- A sequence of samples of one motor: before each sample the hardware has moved
that motor's counter register to the next value of `counts`; returns the final state
and the deltas returned by the samples, in order. -/
def sampleRun (id : MotorID) (st : Encoder × Timers) : List Nat → (Encoder × Timers) × List Int
  | [] => (st, [])
  | c :: cs =>
    let r := GetEncoder id (st.1, st.2.set (timerOf id) c)
    let rest := sampleRun id r.1 cs
    (rest.1, r.2 :: rest.2)

/-! ## `uart2_dma_tx.c`: telemetry packet and DMA handshake -/

def TX_PKT_LEN : Nat := 42

/-- File-scope variables of `uart2_dma_tx.c`. -/
structure Uart2Tx where
  txBuf : List Nat
  txBusy : Bool
deriving DecidableEq, Repr

/-- Values at start-up: zeroed buffer, `txBusy = false`. -/
def Uart2Tx.init : Uart2Tx := { txBuf := List.replicate 42 0, txBusy := false }

/-- Library `memcpy(dst + p, src, n)` on a byte buffer: the bytes of `src` are stored
at offsets `p, p + 1, ...`. -/
def memcpy (buf : List Nat) (p : Nat) : List Nat → List Nat
  | [] => buf
  | b :: bs => memcpy (buf.set p b) (p + 1) bs

/-- Object representation of an `int16_t` on the little-endian target: two's
complement, low byte first. -/
def int16_bytes (v : Int) : List Nat :=
  let u := (v % 65536).toNat
  [u % 256, u / 256 % 256]

/-- Object representation of an `int32_t` on the little-endian target: two's
complement, low byte first. -/
def int32_bytes (v : Int) : List Nat :=
  let u := (v % 4294967296).toNat
  [u % 256, u / 256 % 256, u / 65536 % 256, u / 16777216 % 256]

/-- Function `PreparePacket` on the buffer `txBuf`, with the write pointer `p` kept as an
offset into the buffer; returns the buffer and the final value of `p`. The packet reads
`uart_set_speed`, `GetEncoder_Position(i)` and `real_speeds`. -/
def PreparePacket_run (txBuf : List Nat) (m : MotorFrame) (e : Encoder) (g : MotorPid) :
    List Nat × Nat :=
  let p := 0
  -- *p++ = '#'
  let s : List Nat × Nat := (txBuf.set p 0x23, p + 1)
  -- 1. target speeds, 4 x int16
  let s := (List.range 4).foldl (fun (s : List Nat × Nat) i =>
    let v := int16_t (m.uart_set_speed.getD i 0)
    (memcpy s.1 s.2 (int16_bytes v), s.2 + 2)) s
  -- 2. odometer, 4 x int32
  let s := (List.range 4).foldl (fun (s : List Nat × Nat) i =>
    let v := int32_t (GetEncoder_Position e i)
    (memcpy s.1 s.2 (int32_bytes v), s.2 + 4)) s
  -- 3. real speeds, 4 x int32
  let s := (List.range 4).foldl (fun (s : List Nat × Nat) i =>
    let r := int32_t (g.real_speeds.getD i 0)
    (memcpy s.1 s.2 (int32_bytes r), s.2 + 4)) s
  -- *p++ = '!'
  (s.1.set s.2 0x21, s.2 + 1)

/-- Function `PreparePacket`: fill `txBuf`. -/
def PreparePacket (tx : Uart2Tx) (m : MotorFrame) (e : Encoder) (g : MotorPid) : Uart2Tx :=
  { tx with txBuf := (PreparePacket_run tx.txBuf m e g).1 }

/-- Return type `HAL_StatusTypeDef` of the vendor HAL (declared outside the repository). -/
inductive HAL_StatusTypeDef where
  | HAL_OK
  | HAL_ERROR
  | HAL_BUSY
  | HAL_TIMEOUT
deriving DecidableEq, Repr

/-- Function `Uart2DmaSendPacket`. The argument `status` is what
`HAL_UART_Transmit_DMA(&huart2, txBuf, TX_PKT_LEN)` returns if it is called. The second
component of the result is `some (txBuf, TX_PKT_LEN)`, the arguments handed to the
primitive, when it is called and `none` when it is not. -/
def Uart2DmaSendPacket (tx : Uart2Tx) (m : MotorFrame) (e : Encoder) (g : MotorPid)
    (status : HAL_StatusTypeDef) : Uart2Tx × Option (List Nat × Nat) :=
  if tx.txBusy then (tx, none)
  else
    let tx := PreparePacket tx m e g
    let call := some (tx.txBuf, TX_PKT_LEN)
    if status = HAL_StatusTypeDef.HAL_OK then ({ tx with txBusy := true }, call)
    else (tx, call)

/-- The part of `UART_HandleTypeDef` the callbacks read: the peripheral `Instance`
(its base address). -/
structure UART_HandleTypeDef where
  Instance : Nat
deriving DecidableEq, Repr

/-- Function `HAL_UART_TxCpltCallback(huart)`. The peripheral constant `USART2` comes from
the device header (outside the repository) and is a parameter. -/
def HAL_UART_TxCpltCallback (USART2 : Nat) (tx : Uart2Tx) (huart : UART_HandleTypeDef) : Uart2Tx :=
  if huart.Instance = USART2 then { tx with txBusy := false } else tx

/-- Function `HAL_UART_ErrorCallback(huart)`, with `USART2` as a parameter as above. -/
def HAL_UART_ErrorCallback (USART2 : Nat) (tx : Uart2Tx) (huart : UART_HandleTypeDef) : Uart2Tx :=
  if huart.Instance = USART2 then { tx with txBusy := false } else tx

/-- Number of calls of the transmit primitive recorded in a list of call records. -/
def dmaCalls (calls : List (Option (List Nat × Nat))) : Nat :=
  (calls.filter Option.isSome).length

/-- Decoder of the specification: little-endian `int16` at offset `off` of a buffer. -/
def le_int16_at (buf : List Nat) (off : Nat) : Int :=
  int16_t ((buf.getD off 0 : Int) + 256 * (buf.getD (off + 1) 0 : Int))

/-- Decoder of the specification: little-endian `int32` at offset `off` of a buffer. -/
def le_int32_at (buf : List Nat) (off : Nat) : Int :=
  int32_t ((buf.getD off 0 : Int) + 256 * (buf.getD (off + 1) 0 : Int)
    + 65536 * (buf.getD (off + 2) 0 : Int) + 16777216 * (buf.getD (off + 3) 0 : Int))

/-! ## `motor_pid.c`: the control tick -/

/-- Function `Update_Motors(target_speeds, real_speeds, outputs)`: one `PID_Control` call per
motor, A to D, with setpoint `target_speeds[X] + uart_angle_velocity[X]` (an `int`
addition) and measurement `real_speeds[X]`; returns the globals and the `outputs`
array. -/
def Update_Motors (m : MotorFrame) (g : MotorPid) (target_speeds real_speeds outputs : List Int) :
    MotorPid × List Int :=
  let r := PID_Control g MotorID.MOTOR_A
    (int32_t (target_speeds.getD MotorID.MOTOR_A.toNat 0 +
      m.uart_angle_velocity.getD MotorID.MOTOR_A.toNat 0))
    (real_speeds.getD MotorID.MOTOR_A.toNat 0)
  let s : MotorPid × List Int := (r.1, outputs.set MotorID.MOTOR_A.toNat r.2)
  let r := PID_Control s.1 MotorID.MOTOR_B
    (int32_t (target_speeds.getD MotorID.MOTOR_B.toNat 0 +
      m.uart_angle_velocity.getD MotorID.MOTOR_B.toNat 0))
    (real_speeds.getD MotorID.MOTOR_B.toNat 0)
  let s : MotorPid × List Int := (r.1, s.2.set MotorID.MOTOR_B.toNat r.2)
  let r := PID_Control s.1 MotorID.MOTOR_C
    (int32_t (target_speeds.getD MotorID.MOTOR_C.toNat 0 +
      m.uart_angle_velocity.getD MotorID.MOTOR_C.toNat 0))
    (real_speeds.getD MotorID.MOTOR_C.toNat 0)
  let s : MotorPid × List Int := (r.1, s.2.set MotorID.MOTOR_C.toNat r.2)
  let r := PID_Control s.1 MotorID.MOTOR_D
    (int32_t (target_speeds.getD MotorID.MOTOR_D.toNat 0 +
      m.uart_angle_velocity.getD MotorID.MOTOR_D.toNat 0))
    (real_speeds.getD MotorID.MOTOR_D.toNat 0)
  (r.1, s.2.set MotorID.MOTOR_D.toNat r.2)

/-- Function `Motor_Speed_PID_Control`: sample the four encoders into `real_speeds`, run
`Update_Motors(target_speeds, real_speeds, pwm_outputs)` on the globals, hand the four
outputs to `Motor_OutPut`. Returns the new state and the four arguments of
`Motor_OutPut`. -/
def Motor_Speed_PID_Control (m : MotorFrame) (st : (Encoder × Timers) × MotorPid) :
    ((Encoder × Timers) × MotorPid) × (Int × Int × Int × Int) :=
  let a := GetEncoder_A st.1
  let g := { st.2 with real_speeds := st.2.real_speeds.set MotorID.MOTOR_A.toNat a.2 }
  let b := GetEncoder_B a.1
  let g := { g with real_speeds := g.real_speeds.set MotorID.MOTOR_B.toNat b.2 }
  let c := GetEncoder_C b.1
  let g := { g with real_speeds := g.real_speeds.set MotorID.MOTOR_C.toNat c.2 }
  let d := GetEncoder_D c.1
  let g := { g with real_speeds := g.real_speeds.set MotorID.MOTOR_D.toNat d.2 }
  let u := Update_Motors m g g.target_speeds g.real_speeds g.pwm_outputs
  let g := { u.1 with pwm_outputs := u.2 }
  ((d.1, g),
   (g.pwm_outputs.getD MotorID.MOTOR_A.toNat 0, g.pwm_outputs.getD MotorID.MOTOR_B.toNat 0,
    g.pwm_outputs.getD MotorID.MOTOR_C.toNat 0, g.pwm_outputs.getD MotorID.MOTOR_D.toNat 0))

/-! ## Reset detector: trace of resets and the sliding-window reading -/

/-- For each byte of a stream, in order, whether the callback that consumed it called
`Encoder_ResetAll`. -/
def resets (st : MotorFrame × Encoder) : List Nat → List Bool
  | [] => []
  | b :: bs => (seqDetect st.1 b).2 :: resets (MotorFrame_UART2_RxCallback st b) bs

/-- The plain sliding window of the specification. The state `h` is the list of bytes
received since the most recent detection (or since start), newest first. On a byte
`b` the window fires when the last three bytes received, oldest to newest, are
`0x21, 0x40, 0x21`; it then forgets its history, otherwise `b` joins the history. -/
def windowStep (h : List Nat) (b : Nat) : List Nat × Bool :=
  match h with
  | y :: x :: _ => if x = 0x21 ∧ y = 0x40 ∧ b = 0x21 then ([], true) else (b :: h, false)
  | _ => (b :: h, false)

/-- History of the sliding window after a stream, from history `h`. -/
def windowHist (h : List Nat) (bytes : List Nat) : List Nat :=
  bytes.foldl (fun h b => (windowStep h b).1) h

/-- The ring `seqBuf`/`seqPos` holds the three newest bytes of the history `h` (newest
first in `h`, zero where the history is shorter), oldest at the write position. -/
def RingHolds (h : List Nat) (m : MotorFrame) : Prop :=
  (m.seqPos = 0 ∧ m.seqBuf = [h.getD 2 0, h.getD 1 0, h.getD 0 0]) ∨
  (m.seqPos = 1 ∧ m.seqBuf = [h.getD 0 0, h.getD 2 0, h.getD 1 0]) ∨
  (m.seqPos = 2 ∧ m.seqBuf = [h.getD 1 0, h.getD 0 0, h.getD 2 0])

/-- The index of `rxBuf` that `frameSwitch` writes in state `m` on byte `byte`, if it
writes: `rxBuf[0]` on a header, `rxBuf[rxIndex]` while receiving, `rxBuf[TAIL_INDEX]` on a
tail. -/
def rxWriteIndex (m : MotorFrame) (byte : Nat) : Option Nat :=
  if m.rxState = RX_WAIT_HEAD then (if byte = FRAME_HEAD then some 0 else none)
  else if m.rxState = RX_RECV_DATA then some m.rxIndex
  else if m.rxState = RX_WAIT_TAIL then (if byte = FRAME_TAIL then some TAIL_INDEX else none)
  else none

/-- For each byte of a stream, in order, whether the sliding window fires, from history
`h`. -/
def windowResets (h : List Nat) : List Nat → List Bool
  | [] => []
  | b :: bs => (windowStep h b).2 :: windowResets (windowStep h b).1 bs

/-! ## `speed_ramp.c`: the ramp states that occur at run time -/

/-- Start-up value `static int32_t target_mrpm[4] = {0}`. -/
def SpeedRamp.init : SpeedRamp := { target_mrpm := [0, 0, 0, 0] }

/-- The four commanded speeds are `int8_t` values (the type of `uart_set_speed`). -/
def CmdInt8 (m : MotorFrame) : Prop :=
  ∀ i, i < 4 → -128 ≤ m.uart_set_speed.getD i 0 ∧ m.uart_set_speed.getD i 0 ≤ 127

instance (m : MotorFrame) : Decidable (CmdInt8 m) := by
  unfold CmdInt8
  infer_instance

/-- The ramp state after a history of `SpeedRamp_Update` calls: one call per entry of
`ms`, oldest first, each entry being the command variables that call reads.
`SpeedRamp_Update` is the only writer of `target_mrpm`. -/
def rampHistory (ms : List MotorFrame) (s : SpeedRamp × MotorPid) : SpeedRamp × MotorPid :=
  ms.foldl (fun s m => SpeedRamp_Update m s) s

/-! ## Frame decoder: separation from the detector, decoding of one frame -/

theorem range_four : List.range 4 = [0, 1, 2, 3] := by decide

theorem length_four {α : Type} (l : List α) (h : l.length = 4) :
    ∃ a b c d, l = [a, b, c, d] := by
  rcases l with _ | ⟨a, _ | ⟨b, _ | ⟨c, _ | ⟨d, _ | ⟨x, t⟩⟩⟩⟩⟩ <;> simp at h
  exact ⟨a, b, c, d, rfl⟩

theorem dropSeq_parseFrame (m : MotorFrame) (buf : List Nat) :
    dropSeq (parseFrame m buf) = parseFrame (dropSeq m) buf := by
  simp [parseFrame, dropSeq, range_four]

theorem dropSeq_frameSwitch (m : MotorFrame) (b : Nat) :
    dropSeq (frameSwitch m b) = frameSwitch (dropSeq m) b := by
  unfold frameSwitch
  simp only [dropSeq]
  split_ifs <;> simp [parseFrame, range_four]

theorem dropSeq_seqDetect (m : MotorFrame) (b : Nat) :
    dropSeq (seqDetect m b).1 = dropSeq m := by
  unfold seqDetect
  simp only [dropSeq]
  split_ifs <;> rfl

theorem dropSeq_callback (st : MotorFrame × Encoder) (b : Nat) :
    dropSeq (MotorFrame_UART2_RxCallback st b).1 = frameSwitch (dropSeq st.1) b := by
  simp [MotorFrame_UART2_RxCallback, dropSeq_frameSwitch, dropSeq_seqDetect]

theorem dropSeq_feed (bytes : List Nat) (st : MotorFrame × Encoder) :
    dropSeq (feed st bytes).1 = bytes.foldl frameSwitch (dropSeq st.1) := by
  induction bytes generalizing st with
  | nil => rfl
  | cons b bs ih =>
    simp only [feed, List.foldl_cons] at ih ⊢
    rw [ih, dropSeq_callback]

theorem length_nine {α : Type} (l : List α) (h : l.length = 9) :
    ∃ a b c d e f g h i, l = [a, b, c, d, e, f, g, h, i] := by
  rcases l with _ | ⟨a, _ | ⟨b, _ | ⟨c, _ | ⟨d, _ | ⟨e, _ | ⟨f, _ | ⟨g, _ | ⟨h', _ | ⟨i, _ | ⟨x, t⟩⟩⟩⟩⟩⟩⟩⟩⟩⟩ <;>
    simp at h
  exact ⟨a, b, c, d, e, f, g, h', i, rfl⟩

theorem length_eleven {α : Type} (l : List α) (h : l.length = 11) :
    ∃ a b c d e f g h i j k, l = [a, b, c, d, e, f, g, h, i, j, k] := by
  rcases l with _ | ⟨a, _ | ⟨b, _ | ⟨c, _ | ⟨d, _ | ⟨e, _ | ⟨f, _ | ⟨g, _ | ⟨h', _ | ⟨i, _ | ⟨j, _ | ⟨k, _ | ⟨x, t⟩⟩⟩⟩⟩⟩⟩⟩⟩⟩⟩⟩ <;>
    simp at h
  exact ⟨a, b, c, d, e, f, g, h', i, j, k, rfl⟩

theorem int8_t_byte (b : Nat) (h : b < 256) :
    int8_t (b : Int) = if b < 128 then (b : Int) else (b : Int) - 256 := by
  unfold int8_t
  split_ifs <;> omega

theorem land_one (b : Nat) : b &&& 1 = b % 2 := Nat.and_one_is_mod b

/-- Running the switch alone over one frame from `RX_WAIT_HEAD`. -/
theorem frameSwitch_frame (m : MotorFrame) (p : List Nat)
    (hs : m.rxState = RX_WAIT_HEAD) (hwf : FrameWF m) (hp : p.length = 9) :
    let m' := (frame p).foldl frameSwitch m
    m'.uart_set_speed = (List.range 4).map (fun i => int8_t (p.getD i 0)) ∧
    m'.trapezoidEnabled = decide (p.getD 4 0 % 2 = 1) ∧
    m'.uart_angle_velocity = (List.range 4).map (fun i => int8_t (p.getD (5 + i) 0)) ∧
    m'.rxState = RX_WAIT_HEAD ∧ FrameWF m' ∧ m'.seqBuf = m.seqBuf ∧ m'.seqPos = m.seqPos := by
  obtain ⟨p1, p2, p3, p4, p5, p6, p7, p8, p9, rfl⟩ := length_nine p hp
  obtain ⟨hb, hu, ha⟩ := hwf
  obtain ⟨b0, b1, b2, b3, b4, b5, b6, b7, b8, b9, b10, hb⟩ := length_eleven _ hb
  obtain ⟨u0, u1, u2, u3, hu⟩ := length_four _ hu
  obtain ⟨a0, a1, a2, a3, ha⟩ := length_four _ ha
  simp [frame, frameSwitch, parseFrame, range_four, hs, hb, hu, ha, FrameWF, RX_WAIT_HEAD,
    RX_RECV_DATA, RX_WAIT_TAIL, FRAME_HEAD, FRAME_TAIL, TAIL_INDEX, FRAME_LEN, CTRL_INDEX,
    ANGLE_VEL_INDEX, land_one]
  rcases Nat.mod_two_eq_zero_or_one p5 with h | h <;> simp [h]

theorem command_dropSeq (m : MotorFrame) : command (dropSeq m) = command m := rfl

theorem frameSwitch_seq (m : MotorFrame) (b : Nat) :
    (frameSwitch m b).seqBuf = m.seqBuf ∧ (frameSwitch m b).seqPos = m.seqPos := by
  unfold frameSwitch
  dsimp only
  split_ifs <;> simp [parseFrame, range_four]

/-- Claim C1. From any decoder state waiting for a header, feeding the 11 bytes
`0x23, p1..p9, 0x21` one per call leaves `uart_set_speed[i]` equal to the signed 8-bit
reading of `p(1+i)`, `trapezoidEnabled` equal to bit 0 of `p5`, `uart_angle_velocity[i]`
equal to the signed 8-bit reading of `p(6+i)` (for `i = 0..3`; the list `p` holds
`p1..p9` at indices 0..8), and the decoder waiting for a header again. -/
theorem C1_valid_frame_decodes (m : MotorFrame) (e : Encoder) (p : List Nat)
    (hs : m.rxState = RX_WAIT_HEAD) (hwf : FrameWF m)
    (hp : p.length = 9) (hbyte : ∀ b ∈ p, b < 256) :
    (∀ i, i < 4 → (feed (m, e) (0x23 :: (p ++ [0x21]))).1.uart_set_speed.getD i 0 =
        if p.getD i 0 < 128 then (p.getD i 0 : Int) else (p.getD i 0 : Int) - 256) ∧
    (feed (m, e) (0x23 :: (p ++ [0x21]))).1.trapezoidEnabled = (p.getD 4 0).testBit 0 ∧
    (∀ i, i < 4 → (feed (m, e) (0x23 :: (p ++ [0x21]))).1.uart_angle_velocity.getD i 0 =
        if p.getD (5 + i) 0 < 128 then (p.getD (5 + i) 0 : Int) else (p.getD (5 + i) 0 : Int) - 256) ∧
    (feed (m, e) (0x23 :: (p ++ [0x21]))).1.rxState = RX_WAIT_HEAD := by
  have hfeed := dropSeq_feed (frame p) (m, e)
  have hsw := frameSwitch_frame (dropSeq m) p hs hwf hp
  simp only [] at hsw
  rw [← hfeed] at hsw
  obtain ⟨h1, h2, h3, h4, -⟩ := hsw
  have hget : ∀ i, i < 9 → p.getD i 0 < 256 := by
    intro i hi
    apply hbyte
    rw [List.getD_eq_getElem _ _ (by omega)]
    exact List.getElem_mem _
  change (feed (m, e) (frame p)).1.uart_set_speed = _ at h1
  change (feed (m, e) (frame p)).1.trapezoidEnabled = _ at h2
  change (feed (m, e) (frame p)).1.uart_angle_velocity = _ at h3
  change (feed (m, e) (frame p)).1.rxState = _ at h4
  refine ⟨?_, ?_, ?_, h4⟩
  · intro i hi
    change (feed (m, e) (frame p)).1.uart_set_speed.getD i 0 = _
    rw [h1, range_four, ← int8_t_byte _ (hget i (by omega))]
    interval_cases i <;> rfl
  · change (feed (m, e) (frame p)).1.trapezoidEnabled = _
    rw [h2, Nat.testBit_zero]
  · intro i hi
    change (feed (m, e) (frame p)).1.uart_angle_velocity.getD i 0 = _
    rw [h3, range_four, ← int8_t_byte _ (hget (5 + i) (by omega))]
    interval_cases i <;> rfl

theorem C1_valid_frame_decodes_witness :
    (feed (MotorFrame.init, Encoder.init) (0x23 :: ([1, 2, 255, 128, 3, 6, 7, 8, 200] ++ [0x21]))).1.rxState
      = RX_WAIT_HEAD :=
  (C1_valid_frame_decodes MotorFrame.init Encoder.init [1, 2, 255, 128, 3, 6, 7, 8, 200]
    (by decide) (by decide) (by decide) (by decide)).2.2.2
theorem command_feed (st : MotorFrame × Encoder) (bytes : List Nat) :
    command (feed st bytes).1 = command (bytes.foldl frameSwitch (dropSeq st.1)) := by
  rw [← dropSeq_feed, command_dropSeq]

theorem rxState_feed (st : MotorFrame × Encoder) (bytes : List Nat) :
    (feed st bytes).1.rxState = (bytes.foldl frameSwitch (dropSeq st.1)).rxState := by
  rw [← dropSeq_feed]; rfl

theorem command_frameSwitch (m : MotorFrame) (b : Nat)
    (h : ¬ (m.rxState = RX_WAIT_TAIL ∧ b = 0x21)) :
    command (frameSwitch m b) = command m := by
  unfold frameSwitch
  dsimp only
  split_ifs <;> first | rfl | (exfalso; apply h; constructor <;> assumption)

/-- Claim C2. Command state is written exactly once per frame: for a valid frame
delivered from `RX_WAIT_HEAD`, after each of the first 10 calls the command variables
are unchanged; the decoder is then in `RX_WAIT_TAIL` and the 11th call (tail byte)
writes the decoded payload. In general a call leaves the command variables unchanged
unless `rxState = RX_WAIT_TAIL` and the byte is `0x21`. -/
theorem C2_command_written_once_per_frame (m : MotorFrame) (e : Encoder) (p : List Nat)
    (hs : m.rxState = RX_WAIT_HEAD) (hwf : FrameWF m) (hp : p.length = 9) :
    (∀ k, k ≤ 10 →
      command (feed (m, e) ((0x23 :: (p ++ [0x21])).take k)).1 = command m) ∧
    (feed (m, e) ((0x23 :: (p ++ [0x21])).take 10)).1.rxState = RX_WAIT_TAIL ∧
    command (feed (m, e) (0x23 :: (p ++ [0x21]))).1 =
      ((List.range 4).map (fun i => int8_t (p.getD i 0)),
       (List.range 4).map (fun i => int8_t (p.getD (5 + i) 0)),
       (p.getD 4 0).testBit 0) ∧
    (∀ (st : MotorFrame × Encoder) (b : Nat), ¬ (st.1.rxState = RX_WAIT_TAIL ∧ b = 0x21) →
      command (MotorFrame_UART2_RxCallback st b).1 = command st.1) := by
  refine ⟨?_, ?_, ?_, ?_⟩
  · intro k hk
    rw [command_feed, ← command_dropSeq m]
    obtain ⟨p1, p2, p3, p4, p5, p6, p7, p8, p9, rfl⟩ := length_nine p hp
    have hs' : (dropSeq m).rxState = 0 := hs
    interval_cases k <;>
      simp [frameSwitch, command, hs', RX_WAIT_HEAD, RX_RECV_DATA, RX_WAIT_TAIL, FRAME_HEAD,
        TAIL_INDEX, FRAME_LEN]
  · rw [rxState_feed]
    obtain ⟨p1, p2, p3, p4, p5, p6, p7, p8, p9, rfl⟩ := length_nine p hp
    have hs' : (dropSeq m).rxState = 0 := hs
    simp [frameSwitch, hs', RX_WAIT_HEAD, RX_RECV_DATA, RX_WAIT_TAIL, FRAME_HEAD,
        TAIL_INDEX, FRAME_LEN]
  · have hsw := frameSwitch_frame (dropSeq m) p hs hwf hp
    simp only [] at hsw
    obtain ⟨h1, h2, h3, -⟩ := hsw
    rw [command_feed]
    change command ((frame p).foldl frameSwitch (dropSeq m)) = _
    simp only [command, h1, h2, h3, Nat.testBit_zero]
  · intro st b h
    have := dropSeq_callback st b
    rw [← command_dropSeq, this, command_frameSwitch (dropSeq st.1) b h, command_dropSeq]

theorem C2_command_written_once_per_frame_witness :
    command (feed (MotorFrame.init, Encoder.init)
        ((0x23 :: ([1, 2, 255, 128, 3, 6, 7, 8, 200] ++ [0x21])).take 10)).1
      = command MotorFrame.init :=
  (C2_command_written_once_per_frame MotorFrame.init Encoder.init [1, 2, 255, 128, 3, 6, 7, 8, 200]
    (by decide) (by decide) (by decide)).1 10 (by decide)
/-! ## Resynchronisation of the frame decoder -/

theorem frameSwitch_wf (m : MotorFrame) (b : Nat) (h : FrameWF m) : FrameWF (frameSwitch m b) := by
  obtain ⟨h1, h2, h3⟩ := h
  unfold frameSwitch
  dsimp only
  split_ifs <;> simp [FrameWF, parseFrame, range_four, h1, h2, h3]

theorem frameSwitch_inv (m : MotorFrame) (b : Nat) (h : FrameInv m) :
    FrameInv (frameSwitch m b) := by
  refine ⟨frameSwitch_wf m b h.1, ?_⟩
  obtain ⟨-, h | ⟨h, h1, h2⟩ | h⟩ := h
  · unfold frameSwitch
    rw [if_pos h]
    split_ifs
    · right; left; exact ⟨rfl, le_refl _, by simp⟩
    · left; exact h
  · unfold frameSwitch
    have hne : ¬ m.rxState = RX_WAIT_HEAD := by rw [h]; decide
    rw [if_neg hne, if_pos h]
    dsimp only
    split_ifs with hgt
    · right; right; rfl
    · right; left
      simp only [TAIL_INDEX, FRAME_LEN] at hgt
      refine ⟨h, ?_, ?_⟩ <;> dsimp only <;> omega
  · unfold frameSwitch
    have hne : ¬ m.rxState = RX_WAIT_HEAD := by rw [h]; decide
    have hne2 : ¬ m.rxState = RX_RECV_DATA := by rw [h]; decide
    rw [if_neg hne, if_neg hne2, if_pos h]
    left; rfl

theorem foldl_frameSwitch_inv (bytes : List Nat) (m : MotorFrame) (h : FrameInv m) :
    FrameInv (bytes.foldl frameSwitch m) := by
  induction bytes generalizing m with
  | nil => exact h
  | cons b bs ih => exact ih _ (frameSwitch_inv m b h)

/-- While waiting for a header, bytes other than `0x23` are skipped. -/
theorem foldl_frameSwitch_skip (bytes : List Nat) (m : MotorFrame)
    (hs : m.rxState = RX_WAIT_HEAD) (hno : 0x23 ∉ bytes) :
    bytes.foldl frameSwitch m = m := by
  induction bytes with
  | nil => rfl
  | cons b bs ih =>
    have hb : ¬ b = FRAME_HEAD := fun h => hno (by rw [h]; exact List.mem_cons_self _ _)
    have hstep : frameSwitch m b = m := by
      unfold frameSwitch
      rw [if_pos hs, if_neg hb]
    rw [List.foldl_cons, hstep]
    exact ih (fun h => hno (List.mem_cons_of_mem _ h))

/-- In `RX_RECV_DATA` with write index `rxIndex = 9 - n`, the next `n + 1` bytes are
stored and the decoder then waits for the tail. -/
theorem foldl_frameSwitch_recv (n : Nat) (bytes : List Nat) (m : MotorFrame)
    (hs : m.rxState = RX_RECV_DATA) (hidx : m.rxIndex + n = 9) (hlen : bytes.length = n + 1) :
    (bytes.foldl frameSwitch m).rxState = RX_WAIT_TAIL := by
  have hne : ¬ m.rxState = RX_WAIT_HEAD := by rw [hs]; decide
  induction n generalizing bytes m with
  | zero =>
    obtain ⟨b, rfl⟩ : ∃ b, bytes = [b] := List.length_eq_one.mp hlen
    have h9 : m.rxIndex = 9 := by omega
    simp [frameSwitch, hs, h9, TAIL_INDEX, FRAME_LEN, RX_RECV_DATA, RX_WAIT_HEAD]
  | succ n ih =>
    rcases bytes with _ | ⟨b, bs⟩
    · simp at hlen
    · rw [List.foldl_cons]
      have hstep : (frameSwitch m b).rxState = RX_RECV_DATA ∧
          (frameSwitch m b).rxIndex = m.rxIndex + 1 := by
        unfold frameSwitch
        rw [if_neg hne, if_pos hs]
        dsimp only
        have : ¬ (m.rxIndex + 1) % 256 > TAIL_INDEX - 1 := by
          simp only [TAIL_INDEX, FRAME_LEN]; omega
        rw [if_neg this]
        refine ⟨hs, ?_⟩
        dsimp only; omega
      apply ih bs (frameSwitch m b) hstep.1
      · rw [hstep.2]; omega
      · simpa using hlen
      · rw [hstep.1]; decide

theorem frameSwitch_tail_state (m : MotorFrame) (b : Nat) (hs : m.rxState = RX_WAIT_TAIL) :
    (frameSwitch m b).rxState = RX_WAIT_HEAD := by
  have hne : ¬ m.rxState = RX_WAIT_HEAD := by rw [hs]; decide
  have hne2 : ¬ m.rxState = RX_RECV_DATA := by rw [hs]; decide
  unfold frameSwitch
  rw [if_neg hne, if_neg hne2, if_pos hs]
/-- From any run-time control state, one whole frame whose payload holds no `0x23`
leaves the decoder waiting for a header. -/
theorem frame_resync (m : MotorFrame) (p : List Nat) (hinv : FrameInv m)
    (hp : p.length = 9) (hno : 0x23 ∉ p) :
    FrameInv ((frame p).foldl frameSwitch m) ∧
    ((frame p).foldl frameSwitch m).rxState = RX_WAIT_HEAD := by
  refine ⟨foldl_frameSwitch_inv _ _ hinv, ?_⟩
  have hrest : 0x23 ∉ p ++ [FRAME_TAIL] := by
    intro h
    rcases List.mem_append.mp h with h | h
    · exact hno h
    · simp [FRAME_TAIL] at h
  obtain ⟨hwf, h | ⟨h, h1, h2⟩ | h⟩ := hinv
  · exact (frameSwitch_frame m p h hwf hp).2.2.2.1
  · obtain ⟨n, hn⟩ : ∃ n, m.rxIndex + n = 9 := ⟨9 - m.rxIndex, by omega⟩
    have hlen : (frame p).length = 11 := by simp [frame, hp]
    have hsplit : frame p = (frame p).take (n + 1) ++
        ((frame p).get ⟨n + 1, by omega⟩ :: (frame p).drop (n + 2)) := by
      rw [List.get_eq_getElem, ← List.drop_eq_getElem_cons (by omega), List.take_append_drop]
    rw [hsplit, List.foldl_append, List.foldl_cons]
    have hm1 := foldl_frameSwitch_recv n ((frame p).take (n + 1)) m h hn
      (by rw [List.length_take, hlen]; omega)
    have hm2 := frameSwitch_tail_state _ ((frame p).get ⟨n + 1, by omega⟩) hm1
    rw [foldl_frameSwitch_skip _ _ hm2]
    · exact hm2
    · intro hmem
      apply hrest
      have : (frame p).drop (n + 2) = (p ++ [FRAME_TAIL]).drop (n + 1) := by
        simp [frame]
      rw [this] at hmem
      exact List.mem_of_mem_drop hmem
  · have hm1 := frameSwitch_tail_state m FRAME_HEAD h
    unfold frame
    rw [List.foldl_cons, foldl_frameSwitch_skip _ _ hm1 hrest]
    exact hm1

/-- Frames delivered to a decoder that waits for a header are decoded one after
the other; the decoder waits for a header again after each. -/
theorem frames_aligned (ps : List (List Nat)) (m : MotorFrame)
    (hs : m.rxState = RX_WAIT_HEAD) (hwf : FrameWF m) (hps : ∀ p ∈ ps, p.length = 9) :
    ((frames ps).foldl frameSwitch m).rxState = RX_WAIT_HEAD ∧
    FrameWF ((frames ps).foldl frameSwitch m) := by
  induction ps generalizing m with
  | nil => exact ⟨hs, hwf⟩
  | cons p ps ih =>
    have h := frameSwitch_frame m p hs hwf (hps p (List.mem_cons_self _ _))
    simp only [frames, List.foldl_append]
    exact ih _ h.2.2.2.1 h.2.2.2.2.1 (fun q hq => hps q (List.mem_cons_of_mem _ hq))
/-- After the first ten bytes of a frame the decoder waits for the tail. -/
theorem frameSwitch_frame_take10 (m : MotorFrame) (p : List Nat)
    (hs : m.rxState = RX_WAIT_HEAD) (hp : p.length = 9) :
    (((frame p).take 10).foldl frameSwitch m).rxState = RX_WAIT_TAIL := by
  obtain ⟨p1, p2, p3, p4, p5, p6, p7, p8, p9, rfl⟩ := length_nine p hp
  have hs' : m.rxState = 0 := hs
  simp [frame, frameSwitch, hs', RX_WAIT_HEAD, RX_RECV_DATA, RX_WAIT_TAIL, FRAME_HEAD,
    TAIL_INDEX, FRAME_LEN]

/-- Claim C3, as amended. For a decoder starting in `RX_WAIT_HEAD`, every byte prefix
(with or without stray `0x23` bytes) and every sequence of valid frames `F1, F2, ...`
delivered after it in which the payload of `F1` holds no `0x23` byte (the payloads
of `F2` onward are arbitrary): every frame from `F2` onward is committed with its
exact payload by the call that consumes its tail byte. -/
theorem C3_resync_after_one_frame (m : MotorFrame) (e : Encoder)
    (hs : m.rxState = RX_WAIT_HEAD) (hwf : FrameWF m)
    (pre : List Nat) (p1 : List Nat) (hp1 : p1.length = 9) (hno : 0x23 ∉ p1)
    (ps : List (List Nat)) (hps : ∀ p ∈ ps, p.length = 9)
    (q : List Nat) (hq : q.length = 9) :
    (feed (m, e) (pre ++ frame p1 ++ frames ps ++ (frame q).take 10)).1.rxState = RX_WAIT_TAIL ∧
    command (feed (m, e) (pre ++ frame p1 ++ frames ps ++ frame q)).1 = decoded q ∧
    (feed (m, e) (pre ++ frame p1 ++ frames ps ++ frame q)).1.rxState = RX_WAIT_HEAD := by
  have h0 : FrameInv (dropSeq m) := ⟨hwf, Or.inl hs⟩
  have h1 := foldl_frameSwitch_inv pre _ h0
  have h2 := frame_resync _ p1 h1 hp1 hno
  have h3 := frames_aligned ps _ h2.2 h2.1.1 hps
  have h4 := frameSwitch_frame _ q h3.1 h3.2 hq
  have h5 := frameSwitch_frame_take10 _ q h3.1 hq
  simp only [] at h4
  obtain ⟨a1, a2, a3, a4, -⟩ := h4
  refine ⟨?_, ?_, ?_⟩
  · rw [rxState_feed]
    simp only [List.foldl_append]
    exact h5
  · rw [command_feed]
    simp only [List.foldl_append]
    simp only [command, decoded, a1, a2, a3, Nat.testBit_zero]
  · rw [rxState_feed]
    simp only [List.foldl_append]
    exact a4

theorem C3_resync_after_one_frame_witness :
    command (feed (MotorFrame.init, Encoder.init)
      ([0x23, 0, 0, 0] ++ frame [1, 1, 1, 1, 1, 1, 1, 1, 1] ++ frames [[2, 2, 2, 2, 0, 2, 2, 2, 2]] ++
        frame [5, 5, 5, 5, 1, 5, 5, 5, 5])).1 = decoded [5, 5, 5, 5, 1, 5, 5, 5, 5] :=
  (C3_resync_after_one_frame MotorFrame.init Encoder.init (by decide) (by decide)
    [0x23, 0, 0, 0] [1, 1, 1, 1, 1, 1, 1, 1, 1] (by decide) (by decide)
    [[2, 2, 2, 2, 0, 2, 2, 2, 2]] (by decide) [5, 5, 5, 5, 1, 5, 5, 5, 5] (by decide)).2.1

/-- Counterexample to claim C3 as stated. From the start-up state, the prefix `0x23, 0, 0, 0`
(a stray header) followed by the valid frames `F1` (payload `1,1,1,1,1,1,0x23,1,1`)
and `F2` (payload `5,5,5,5,1,5,5,5,5`): after each of the 26 calls the command
variables still hold their start-up values, so neither `F1` nor `F2` is committed. -/
theorem C3_two_frames_lost :
    MotorFrame.init.rxState = RX_WAIT_HEAD ∧ 0x23 ∈ [0x23, 0, 0, 0] ∧
    decoded [5, 5, 5, 5, 1, 5, 5, 5, 5] ≠ command MotorFrame.init ∧
    (List.range 27).map (fun k =>
      command (feed (MotorFrame.init, Encoder.init)
        (([0x23, 0, 0, 0] ++ frame [1, 1, 1, 1, 1, 1, 0x23, 1, 1] ++
          frame [5, 5, 5, 5, 1, 5, 5, 5, 5]).take k)).1) =
      List.replicate 27 (command MotorFrame.init) := by
  decide
/-! ## Reset detector -/

theorem length_three {α : Type} (l : List α) (h : l.length = 3) :
    ∃ a b c, l = [a, b, c] := by
  rcases l with _ | ⟨a, _ | ⟨b, _ | ⟨c, _ | ⟨x, t⟩⟩⟩⟩ <;> simp at h
  exact ⟨a, b, c, rfl⟩

theorem Encoder_ResetAll_eq (e : Encoder) (h : e.s_position.length = 4) :
    (Encoder_ResetAll e).s_position = [0, 0, 0, 0] := by
  obtain ⟨a, b, c, d, h⟩ := length_four _ h
  simp [Encoder_ResetAll, range_four, h]

/-- The detector reads and writes only `seqBuf` and `seqPos`. -/
theorem seqDetect_eq_seqStep (m : MotorFrame) (b : Nat) :
    seqDetect m b =
      ({ m with seqBuf := (seqStep m.seqBuf m.seqPos b).1,
                seqPos := (seqStep m.seqBuf m.seqPos b).2.1 },
       (seqStep m.seqBuf m.seqPos b).2.2) := by
  unfold seqStep seqDetect
  dsimp only
  split_ifs <;> rfl

/-- Effect of one callback on the detector's variables and on the positions. -/
theorem callback_seq (st : MotorFrame × Encoder) (b : Nat) :
    (MotorFrame_UART2_RxCallback st b).1.seqBuf = (seqStep st.1.seqBuf st.1.seqPos b).1 ∧
    (MotorFrame_UART2_RxCallback st b).1.seqPos = (seqStep st.1.seqBuf st.1.seqPos b).2.1 ∧
    (MotorFrame_UART2_RxCallback st b).2 =
      if (seqStep st.1.seqBuf st.1.seqPos b).2.2 then Encoder_ResetAll st.2 else st.2 := by
  unfold MotorFrame_UART2_RxCallback
  dsimp only
  rw [(frameSwitch_seq _ _).1, (frameSwitch_seq _ _).2, seqDetect_eq_seqStep]
  exact ⟨rfl, rfl, rfl⟩

theorem seqStep_pos0 (x y z b : Nat) :
    seqStep [x, y, z] 0 b =
      if y = 0x21 ∧ z = 0x40 ∧ b = 0x21 then ([0, 0, 0], 0, true) else ([b, y, z], 1, false) := by
  simp only [seqStep, seqDetect]
  split_ifs <;> simp_all

theorem seqStep_pos1 (x y z b : Nat) :
    seqStep [x, y, z] 1 b =
      if z = 0x21 ∧ x = 0x40 ∧ b = 0x21 then ([0, 0, 0], 0, true) else ([x, b, z], 2, false) := by
  simp only [seqStep, seqDetect]
  split_ifs <;> simp_all

theorem seqStep_pos2 (x y z b : Nat) :
    seqStep [x, y, z] 2 b =
      if x = 0x21 ∧ y = 0x40 ∧ b = 0x21 then ([0, 0, 0], 0, true) else ([x, y, b], 0, false) := by
  simp only [seqStep, seqDetect]
  split_ifs <;> simp_all

theorem seqStep_reset_seq (x y z pos : Nat) (hpos : pos < 3) :
    (seqStep [x, y, z] pos 0x21).2.2 = true ∨
    (seqStep
      (seqStep (seqStep [x, y, z] pos 0x21).1 (seqStep [x, y, z] pos 0x21).2.1 0x40).1
      (seqStep (seqStep [x, y, z] pos 0x21).1 (seqStep [x, y, z] pos 0x21).2.1 0x40).2.1
      0x21).2.2 = true := by
  interval_cases pos
  · rw [seqStep_pos0]
    by_cases h : y = 0x21 ∧ z = 0x40 ∧ 0x21 = 0x21
    · left; rw [if_pos h]
    · right; rw [if_neg h]; simp [seqStep_pos1, seqStep_pos2]
  · rw [seqStep_pos1]
    by_cases h : z = 0x21 ∧ x = 0x40 ∧ 0x21 = 0x21
    · left; rw [if_pos h]
    · right; rw [if_neg h]; simp [seqStep_pos2, seqStep_pos0]
  · rw [seqStep_pos2]
    by_cases h : x = 0x21 ∧ y = 0x40 ∧ 0x21 = 0x21
    · left; rw [if_pos h]
    · right; rw [if_neg h]; simp [seqStep_pos0, seqStep_pos1]
theorem callback_positions_zero (st : MotorFrame × Encoder) (b : Nat)
    (h : st.2.s_position = [0, 0, 0, 0]) :
    (MotorFrame_UART2_RxCallback st b).2.s_position = [0, 0, 0, 0] := by
  rw [(callback_seq st b).2.2]
  split_ifs
  · exact Encoder_ResetAll_eq _ (by simp [h])
  · exact h

theorem callback_positions_length (st : MotorFrame × Encoder) (b : Nat)
    (h : st.2.s_position.length = 4) :
    (MotorFrame_UART2_RxCallback st b).2.s_position.length = 4 := by
  rw [(callback_seq st b).2.2]
  split_ifs
  · rw [Encoder_ResetAll_eq _ h]; rfl
  · exact h

/-- Claim C4. For every state of the frame decoder, every state of the reset detector
(ring of three slots, write position in 0..2) and every position array, after the
callback has consumed the three consecutive bytes `0x21, 0x40, 0x21` all four
accumulated positions are zero. -/
theorem C4_reset_sequence_zeroes_positions (m : MotorFrame) (e : Encoder)
    (hseq : SeqWF m) (hpos : e.s_position.length = 4) :
    (feed (m, e) [0x21, 0x40, 0x21]).2.s_position = [0, 0, 0, 0] := by
  obtain ⟨hlen, hlt⟩ := hseq
  obtain ⟨x, y, z, hxyz⟩ := length_three _ hlen
  simp only [feed, List.foldl_cons, List.foldl_nil]
  have h1 := callback_seq (m, e) 0x21
  have h2 := callback_seq (MotorFrame_UART2_RxCallback (m, e) 0x21) 0x40
  have h3 := callback_seq
    (MotorFrame_UART2_RxCallback (MotorFrame_UART2_RxCallback (m, e) 0x21) 0x40) 0x21
  have key := seqStep_reset_seq x y z m.seqPos hlt
  rw [h2.1, h2.2.1, h1.1, h1.2.1] at h3
  simp only [hxyz] at h1 h3
  rcases key with k | k
  · apply callback_positions_zero
    apply callback_positions_zero
    rw [h1.2.2, if_pos k]
    exact Encoder_ResetAll_eq e hpos
  · rw [h3.2.2, if_pos k]
    apply Encoder_ResetAll_eq
    apply callback_positions_length
    apply callback_positions_length
    exact hpos

theorem C4_reset_sequence_zeroes_positions_witness :
    (feed ({ MotorFrame.init with seqBuf := [0x21, 0x40, 7], seqPos := 2 }, Encoder.init)
      [0x21, 0x40, 0x21]).2.s_position = [0, 0, 0, 0] :=
  C4_reset_sequence_zeroes_positions _ _ (by decide) (by decide)
/-! ## PID controller -/

theorem MotorID.toNat_lt (id : MotorID) : id.toNat < 4 := by
  cases id <;> decide

theorem getD_set_self {α : Type} (l : List α) (i : Nat) (a d : α) (h : i < l.length) :
    (l.set i a).getD i d = a := by
  rw [List.getD_eq_getElem _ _ (by rw [List.length_set]; exact h)]
  exact List.getElem_set_self _

theorem getD_set_ne {α : Type} (l : List α) (i j : Nat) (a d : α) (h : i ≠ j) :
    (l.set i a).getD j d = l.getD j d := by
  simp [List.getD_eq_getElem?_getD, List.getElem?_set_ne h]

/-- The result of `PID_Control_state` written out field by field. -/
theorem PID_Control_state_eq (state : PID_State) (setpoint real_speed : Int) :
    PID_Control_state state setpoint real_speed =
      ({ integral := saturate 100000 (int32_t (state.integral + int32_t (setpoint - real_speed))),
         prev_error := int32_t (setpoint - real_speed) },
       saturate 1000 (Int.tdiv
        (int32_t (int32_t (int32_t (5500 * int32_t (setpoint - real_speed)) +
            int32_t (800 *
              saturate 100000 (int32_t (state.integral + int32_t (setpoint - real_speed))))) +
          int32_t (0 * int32_t (int32_t (setpoint - real_speed) - state.prev_error)))) 100)) := by
  unfold PID_Control_state saturate
  simp only [INTEGRAL_LIMIT, OUTPUT_LIMIT, pid_params]
  split_ifs <;> rfl

theorem saturate_bounds (L x : Int) (hL : 0 ≤ L) : -L ≤ saturate L x ∧ saturate L x ≤ L := by
  unfold saturate
  split_ifs <;> constructor <;> omega

theorem PID_Control_state_bounds (state : PID_State) (setpoint real_speed : Int) :
    -100000 ≤ (PID_Control_state state setpoint real_speed).1.integral ∧
    (PID_Control_state state setpoint real_speed).1.integral ≤ 100000 ∧
    -1000 ≤ (PID_Control_state state setpoint real_speed).2 ∧
    (PID_Control_state state setpoint real_speed).2 ≤ 1000 := by
  rw [PID_Control_state_eq]
  exact ⟨(saturate_bounds _ _ (by decide)).1, (saturate_bounds _ _ (by decide)).2,
    (saturate_bounds _ _ (by decide)).1, (saturate_bounds _ _ (by decide)).2⟩

theorem PID_Control_getD (g : MotorPid) (id : MotorID) (setpoint real_speed : Int)
    (h : g.motor_states.length = 4) :
    (PID_Control g id setpoint real_speed).1.motor_states.getD id.toNat default =
      (PID_Control_state (g.motor_states.getD id.toNat default) setpoint real_speed).1 := by
  unfold PID_Control
  exact getD_set_self _ _ _ _ (by rw [h]; exact id.toNat_lt)

/-- Claim C5. After every call of `PID_Control`, for every axis, prior state and
setpoint/measured input, the stored integral of the axis lies in `[-100000, 100000]`
and the returned output lies in `[-1000, 1000]`. -/
theorem C5_pid_integral_and_output_bounded (g : MotorPid) (id : MotorID)
    (setpoint real_speed : Int) (h : g.motor_states.length = 4) :
    -INTEGRAL_LIMIT ≤
      ((PID_Control g id setpoint real_speed).1.motor_states.getD id.toNat default).integral ∧
    ((PID_Control g id setpoint real_speed).1.motor_states.getD id.toNat default).integral
      ≤ INTEGRAL_LIMIT ∧
    INTEGRAL_LIMIT = 100000 ∧
    -OUTPUT_LIMIT ≤ (PID_Control g id setpoint real_speed).2 ∧
    (PID_Control g id setpoint real_speed).2 ≤ OUTPUT_LIMIT ∧
    OUTPUT_LIMIT = 1000 := by
  rw [PID_Control_getD g id setpoint real_speed h]
  have hb := PID_Control_state_bounds (g.motor_states.getD id.toNat default) setpoint real_speed
  exact ⟨hb.1, hb.2.1, rfl, hb.2.2.1, hb.2.2.2, rfl⟩

theorem C5_pid_integral_and_output_bounded_witness :
    (PID_Control ⟨[⟨0, 0⟩, ⟨99999, 3⟩, ⟨0, 0⟩, ⟨0, 0⟩], [], [], []⟩ MotorID.MOTOR_B 400 (-7)).2
      ≤ OUTPUT_LIMIT :=
  (C5_pid_integral_and_output_bounded _ MotorID.MOTOR_B 400 (-7) (by decide)).2.2.2.2.1
theorem int32_t_id (x : Int) (h1 : -2147483648 ≤ x) (h2 : x ≤ 2147483647) : int32_t x = x := by
  unfold int32_t; omega

theorem saturate_eq_clampSym (L x : Int) (hL : 0 ≤ L) : saturate L x = clampSym L x := by
  unfold saturate clampSym
  split_ifs <;> omega

/-- Claim C6, as amended. A `PID_Control` step in which the exact values
`Kp*error`, `integral + error` and `Kp*error + Ki*integral'` fit the signed 32-bit
range computes exactly the control law of the specification (`PID_step_spec`) with
`Kp = 5500`, `Ki = 800`, `Kd = 0`; the `Ki` term uses the clamped integral. -/
theorem C6_pid_step_exact_in_range (g : MotorPid) (id : MotorID) (setpoint real_speed : Int)
    (h : g.motor_states.length = 4)
    (hP : -2147483648 ≤ 5500 * (setpoint - real_speed) ∧
      5500 * (setpoint - real_speed) ≤ 2147483647)
    (hI : -2147483648 ≤ (g.motor_states.getD id.toNat default).integral + (setpoint - real_speed) ∧
      (g.motor_states.getD id.toNat default).integral + (setpoint - real_speed) ≤ 2147483647)
    (hS : -2147483648 ≤ 5500 * (setpoint - real_speed) + 800 * clampSym 100000
        ((g.motor_states.getD id.toNat default).integral + (setpoint - real_speed)) ∧
      5500 * (setpoint - real_speed) + 800 * clampSym 100000
        ((g.motor_states.getD id.toNat default).integral + (setpoint - real_speed)) ≤ 2147483647) :
    ((PID_Control g id setpoint real_speed).1.motor_states.getD id.toNat default,
      (PID_Control g id setpoint real_speed).2) =
      PID_step_spec (g.motor_states.getD id.toNat default) setpoint real_speed ∧
    pid_params = { Kp := 5500, Ki := 800, Kd := 0 } := by
  refine ⟨?_, rfl⟩
  rw [PID_Control_getD g id setpoint real_speed h]
  change PID_Control_state _ _ _ = _
  rw [PID_Control_state_eq]
  have he : int32_t (setpoint - real_speed) = setpoint - real_speed :=
    int32_t_id _ (by omega) (by omega)
  rw [he, int32_t_id _ hI.1 hI.2, saturate_eq_clampSym _ _ (by decide),
    saturate_eq_clampSym _ _ (by decide)]
  have hc : -100000 ≤ clampSym 100000
      ((g.motor_states.getD id.toNat default).integral + (setpoint - real_speed)) ∧
      clampSym 100000
      ((g.motor_states.getD id.toNat default).integral + (setpoint - real_speed)) ≤ 100000 := by
    unfold clampSym; constructor <;> omega
  rw [int32_t_id _ hP.1 hP.2, int32_t_id (800 * _) (by omega) (by omega),
    int32_t_id _ hS.1 hS.2]
  simp only [zero_mul]
  rw [int32_t_id 0 (by decide) (by decide), add_zero, int32_t_id _ hS.1 hS.2]
  simp only [PID_step_spec, zero_mul, add_zero]

theorem C6_pid_step_exact_in_range_witness :
    ((PID_Control MotorPid.init MotorID.MOTOR_C 10 3).1.motor_states.getD 2 default,
      (PID_Control MotorPid.init MotorID.MOTOR_C 10 3).2) = (⟨7, 7⟩, 441) :=
  (C6_pid_step_exact_in_range MotorPid.init MotorID.MOTOR_C 10 3 (by decide) (by decide)
    (by decide) (by decide)).1

/-- Counterexample to claim C6 as stated. From the zero state, `PID_Control(MOTOR_A, 400000, 0)`:
the product `Kp*error = 2 200 000 000` does not fit 32 bits, the code returns `-1000`
and the exact control law gives `+1000`. -/
theorem C6_pid_overflow :
    (PID_Control MotorPid.init MotorID.MOTOR_A 400000 0).2 = -1000 ∧
    (PID_step_spec (MotorPid.init.motor_states.getD 0 default) 400000 0).2 = 1000 := by
  decide
theorem PID_Init_motor_states (g : MotorPid) (hwf : PidWF g) :
    (PID_Init g).motor_states = List.replicate 4 { integral := 0, prev_error := 0 } := by
  obtain ⟨h1, h2, h3, h4⟩ := hwf
  obtain ⟨a, b, c, d, h1⟩ := length_four _ h1
  simp [PID_Init, range_four, h1]

theorem PID_Control_state_zero (x : Int) :
    PID_Control_state { integral := 0, prev_error := 0 } x x =
      ({ integral := 0, prev_error := 0 }, 0) := by
  rw [PID_Control_state_eq]
  simp [int32_t, saturate]

theorem PID_Control_zero (g : MotorPid) (id : MotorID) (x : Int)
    (h : g.motor_states = List.replicate 4 { integral := 0, prev_error := 0 }) :
    (PID_Control g id x x).2 = 0 ∧
    (PID_Control g id x x).1.motor_states =
      List.replicate 4 { integral := 0, prev_error := 0 } := by
  unfold PID_Control
  have hget : g.motor_states.getD id.toNat default = { integral := 0, prev_error := 0 } := by
    rw [h]; cases id <;> rfl
  rw [hget, PID_Control_state_zero, h]
  refine ⟨rfl, ?_⟩
  cases id <;> rfl

theorem pidRun_zero (calls : List (MotorID × Int × Int)) (g : MotorPid)
    (h : g.motor_states = List.replicate 4 { integral := 0, prev_error := 0 })
    (hzero : ∀ c ∈ calls, c.2.1 = c.2.2) :
    (pidRun g calls).2 = List.replicate calls.length 0 ∧
    (pidRun g calls).1.motor_states = List.replicate 4 { integral := 0, prev_error := 0 } := by
  induction calls generalizing g with
  | nil => exact ⟨rfl, h⟩
  | cons c cs ih =>
    have hc : c.2.1 = c.2.2 := hzero c (List.mem_cons_self _ _)
    have hstep := PID_Control_zero g c.1 c.2.2 h
    have hrest := ih (PID_Control g c.1 c.2.2 c.2.2).1 hstep.2
      (fun d hd => hzero d (List.mem_cons_of_mem _ hd))
    simp only [pidRun, hc, List.length_cons, List.replicate_succ]
    exact ⟨by rw [hstep.1, hrest.1], hrest.2⟩

/-- Claim C7. From the zero PID state left by `PID_Init`, for every number and every
sequence of `PID_Control` calls in which setpoint and measurement are equal, every
returned output is exactly 0 and the state of every motor stays zero. -/
theorem C7_zero_error_keeps_zero (g : MotorPid) (hwf : PidWF g)
    (calls : List (MotorID × Int × Int)) (hzero : ∀ c ∈ calls, c.2.1 = c.2.2) :
    (PID_Init g).motor_states = List.replicate 4 { integral := 0, prev_error := 0 } ∧
    (pidRun (PID_Init g) calls).2 = List.replicate calls.length 0 ∧
    (pidRun (PID_Init g) calls).1.motor_states =
      List.replicate 4 { integral := 0, prev_error := 0 } := by
  have h0 := PID_Init_motor_states g hwf
  exact ⟨h0, pidRun_zero calls _ h0 hzero⟩

theorem C7_zero_error_keeps_zero_witness :
    (pidRun (PID_Init ⟨[⟨5, 1⟩, ⟨-7, 2⟩, ⟨0, 0⟩, ⟨9, 9⟩], [1, 2, 3, 4], [0, 0, 0, 0], [7, 7, 7, 7]⟩)
      [(MotorID.MOTOR_A, 30, 30), (MotorID.MOTOR_D, -4, -4), (MotorID.MOTOR_A, 0, 0)]).2
      = [0, 0, 0] :=
  (C7_zero_error_keeps_zero _ (by decide)
    [(MotorID.MOTOR_A, 30, 30), (MotorID.MOTOR_D, -4, -4), (MotorID.MOTOR_A, 0, 0)]
    (by decide)).2.1
theorem PID_Control_length (g : MotorPid) (id : MotorID) (sp rs : Int) :
    (PID_Control g id sp rs).1.motor_states.length = g.motor_states.length := by
  simp [PID_Control]

theorem integral_step (I e : Int) (k : Nat) (he : 0 < e) (hmax : e ≤ 2147383647)
    (hI : I = min ((k : Int) * e) 100000) :
    saturate 100000 (int32_t (I + int32_t e)) = min (((k + 1 : Nat) : Int) * e) 100000 := by
  have hk : 0 ≤ (k : Int) * e := mul_nonneg (Int.ofNat_nonneg k) (le_of_lt he)
  have hle : I ≤ 100000 := by rw [hI]; exact min_le_right _ _
  have h0 : 0 ≤ I := by rw [hI]; exact le_min hk (by decide)
  rw [int32_t_id e (by omega) (by omega), int32_t_id (I + e) (by omega) (by omega)]
  have hexp : ((k + 1 : Nat) : Int) * e = (k : Int) * e + e := by push_cast; ring
  rw [hexp]
  unfold saturate
  rcases le_total ((k : Int) * e) 100000 with hc | hc
  · rw [min_eq_left hc] at hI
    subst hI
    split_ifs <;> omega
  · rw [min_eq_right hc] at hI
    subst hI
    split_ifs <;> omega

theorem pidRun_constant_error (id : MotorID) (e : Int) (he : 0 < e) (hmax : e ≤ 2147383647)
    (calls : List (MotorID × Int × Int)) (hcalls : ∀ c ∈ calls, c.1 = id ∧ c.2.1 - c.2.2 = e)
    (g : MotorPid) (k : Nat) (hlen : g.motor_states.length = 4)
    (hI : (g.motor_states.getD id.toNat default).integral = min ((k : Int) * e) 100000) :
    ((pidRun g calls).1.motor_states.getD id.toNat default).integral =
      min (((k + calls.length : Nat) : Int) * e) 100000 := by
  induction calls generalizing g k with
  | nil => simpa [pidRun] using hI
  | cons c cs ih =>
    obtain ⟨hid, hce⟩ := hcalls c (List.mem_cons_self _ _)
    have hstep : ((PID_Control g c.1 c.2.1 c.2.2).1.motor_states.getD id.toNat default).integral =
        min (((k + 1 : Nat) : Int) * e) 100000 := by
      rw [hid, PID_Control_getD g id _ _ hlen, PID_Control_state_eq, hce]
      exact integral_step _ e k he hmax hI
    have := ih (fun d hd => hcalls d (List.mem_cons_of_mem _ hd))
      (PID_Control g c.1 c.2.1 c.2.2).1 (k + 1)
      (by rw [PID_Control_length]; exact hlen) hstep
    simp only [pidRun, List.length_cons]
    rw [this]
    congr 2
    omega

/-- Claim C8, as amended. For every constant positive error `e ≤ 2147383647`
(`INT_MAX - INTEGRAL_LIMIT`) applied to `PID_Control` of one motor from the zero
state, the integral after `n` steps equals `min(n*e, 100000)`: it never exceeds
`100000`, is `100000` from step `ceil(100000/e)` on and is below it before. -/
theorem C8_integral_saturates_at_limit (id : MotorID) (e : Int) (he : 0 < e)
    (hmax : e ≤ 2147383647)
    (calls : List (MotorID × Int × Int)) (hcalls : ∀ c ∈ calls, c.1 = id ∧ c.2.1 - c.2.2 = e) :
    ((pidRun MotorPid.init calls).1.motor_states.getD id.toNat default).integral =
      min ((calls.length : Int) * e) 100000 ∧
    ((pidRun MotorPid.init calls).1.motor_states.getD id.toNat default).integral ≤ INTEGRAL_LIMIT ∧
    ((100000 + e - 1) / e ≤ (calls.length : Int) →
      ((pidRun MotorPid.init calls).1.motor_states.getD id.toNat default).integral
        = INTEGRAL_LIMIT) ∧
    ((calls.length : Int) < (100000 + e - 1) / e →
      ((pidRun MotorPid.init calls).1.motor_states.getD id.toNat default).integral
        < INTEGRAL_LIMIT) := by
  have h0 : (MotorPid.init.motor_states.getD id.toNat default).integral =
      min (((0 : Nat) : Int) * e) 100000 := by
    cases id <;> simp [MotorPid.init, MotorID.toNat]
  have hmain := pidRun_constant_error id e he hmax calls hcalls MotorPid.init 0 rfl h0
  rw [Nat.zero_add] at hmain
  have hdiv := Int.emod_add_ediv (100000 + e - 1) e
  have hmod1 := Int.emod_nonneg (100000 + e - 1) (ne_of_gt he)
  have hmod2 := Int.emod_lt_of_pos (100000 + e - 1) he
  refine ⟨hmain, ?_, ?_, ?_⟩
  · rw [hmain]; exact min_le_right _ _
  · intro hn
    rw [hmain]
    apply min_eq_right
    have : (100000 + e - 1) / e * e ≤ (calls.length : Int) * e :=
      mul_le_mul_of_nonneg_right hn (le_of_lt he)
    nlinarith
  · intro hn
    rw [hmain]
    apply lt_of_le_of_lt (min_le_left _ _)
    have : ((calls.length : Int) + 1) * e ≤ (100000 + e - 1) / e * e :=
      mul_le_mul_of_nonneg_right (by omega) (le_of_lt he)
    simp only [INTEGRAL_LIMIT]
    nlinarith

theorem C8_integral_saturates_at_limit_witness :
    ((pidRun MotorPid.init
        [(MotorID.MOTOR_B, 40000, 0), (MotorID.MOTOR_B, 30000, -10000),
         (MotorID.MOTOR_B, 40000, 0)]).1.motor_states.getD 1 default).integral = 100000 :=
  (C8_integral_saturates_at_limit MotorID.MOTOR_B 40000 (by decide) (by decide)
    [(MotorID.MOTOR_B, 40000, 0), (MotorID.MOTOR_B, 30000, -10000), (MotorID.MOTOR_B, 40000, 0)]
    (by decide)).1

/-- Counterexample to claim C8 as stated. With the constant positive error `e = 2147483647` on
motor A from the zero state, the second step computes `100000 + e`, which does
not fit 32 bits: the integral after two steps is `-100000`, not `min(2*e, 100000)`. -/
theorem C8_integral_overflow :
    ((pidRun MotorPid.init [(MotorID.MOTOR_A, 2147483647, 0),
        (MotorID.MOTOR_A, 2147483647, 0)]).1.motor_states.getD 0 default).integral = -100000 ∧
    min ((2 : Int) * 2147483647) 100000 = 100000 := by
  decide
/-! ## Speed ramp -/

theorem int16_t_id (x : Int) (h1 : -32768 ≤ x) (h2 : x ≤ 32767) : int16_t x = x := by
  unfold int16_t; omega

theorem STEP_MRPM_eq : STEP_MRPM = 100 := by decide

/-- One call of `SpeedRamp_Update` seen from motor `i`. -/
theorem SpeedRamp_Update_axis (m : MotorFrame) (s : SpeedRamp × MotorPid) (i : Nat) (hi : i < 4)
    (h1 : s.1.target_mrpm.length = 4) (h2 : s.2.target_speeds.length = 4) :
    (SpeedRamp_Update m s).1.target_mrpm.getD i 0 =
      rampNext m.trapezoidEnabled (m.uart_set_speed.getD i 0) (s.1.target_mrpm.getD i 0) ∧
    (SpeedRamp_Update m s).2.target_speeds.getD i 0 =
      int16_t (Int.tdiv (rampNext m.trapezoidEnabled (m.uart_set_speed.getD i 0)
        (s.1.target_mrpm.getD i 0)) SCALE_MRPM) ∧
    (SpeedRamp_Update m s).1.target_mrpm.length = 4 ∧
    (SpeedRamp_Update m s).2.target_speeds.length = 4 := by
  obtain ⟨a, b, c, d, h1⟩ := length_four _ h1
  obtain ⟨a', b', c', d', h2⟩ := length_four _ h2
  interval_cases i <;> simp [SpeedRamp_Update, range_four, h1, h2]

theorem rampRun_succ (m : MotorFrame) (n : Nat) (s : SpeedRamp × MotorPid) :
    rampRun m (n + 1) s = SpeedRamp_Update m (rampRun m n s) := by
  unfold rampRun
  exact Function.iterate_succ_apply' _ _ _

theorem rampRun_length (m : MotorFrame) (s : SpeedRamp × MotorPid)
    (h1 : s.1.target_mrpm.length = 4) (h2 : s.2.target_speeds.length = 4) (n : Nat) :
    (rampRun m n s).1.target_mrpm.length = 4 ∧ (rampRun m n s).2.target_speeds.length = 4 := by
  induction n with
  | zero => exact ⟨h1, h2⟩
  | succ n ih =>
    rw [rampRun_succ]
    have := SpeedRamp_Update_axis m (rampRun m n s) 0 (by decide) ih.1 ih.2
    exact this.2.2

/-- With the ramp enabled and the command 100, a setpoint `min(100 n, 100000)` moves
to `min(100 (n + 1), 100000)`. -/
theorem rampNext_toward_100 (n : Nat) :
    rampNext true 100 (min (100 * (n : Int)) 100000) = min (100 * ((n + 1 : Nat) : Int)) 100000 := by
  simp only [rampNext, SCALE_MRPM, STEP_MRPM_eq, if_true]
  rw [int32_t_id 100 (by decide) (by decide), int32_t_id (100 * 1000) (by decide) (by decide)]
  have hn : (0 : Int) ≤ n := Int.ofNat_nonneg n
  rcases le_total (100 * (n : Int)) 100000 with hc | hc
  · rw [min_eq_left hc, int32_t_id _ (by omega) (by omega)]
    push_cast
    split_ifs with h1 h2
    · rw [int32_t_id _ (by omega) (by omega), min_eq_left (by omega)]; ring
    · omega
    · rw [min_eq_right (by omega)]
  · rw [min_eq_right hc, int32_t_id _ (by omega) (by omega)]
    push_cast
    rw [min_eq_right (by omega)]

theorem rampRun_toward_100 (m : MotorFrame) (s : SpeedRamp × MotorPid) (i : Nat) (hi : i < 4)
    (h1 : s.1.target_mrpm.length = 4) (h2 : s.2.target_speeds.length = 4)
    (hon : m.trapezoidEnabled = true) (hcmd : m.uart_set_speed.getD i 0 = 100)
    (hcur : s.1.target_mrpm.getD i 0 = 0) (n : Nat) :
    (rampRun m n s).1.target_mrpm.getD i 0 = min (100 * (n : Int)) 100000 ∧
    (rampRun m (n + 1) s).2.target_speeds.getD i 0 =
      (min (100 * ((n + 1 : Nat) : Int)) 100000) / 1000 := by
  have hmrpm : ∀ k : Nat, (rampRun m k s).1.target_mrpm.getD i 0 = min (100 * (k : Int)) 100000 := by
    intro k
    induction k with
    | zero => simpa [rampRun] using hcur
    | succ k ih =>
      have hl := rampRun_length m s h1 h2 k
      rw [rampRun_succ, (SpeedRamp_Update_axis m _ i hi hl.1 hl.2).1, hon, hcmd, ih]
      exact rampNext_toward_100 k
  refine ⟨hmrpm n, ?_⟩
  have hl := rampRun_length m s h1 h2 n
  rw [rampRun_succ, (SpeedRamp_Update_axis m _ i hi hl.1 hl.2).2.1, hon, hcmd, hmrpm n,
    rampNext_toward_100 n, SCALE_MRPM]
  have hn : (0 : Int) ≤ ((n + 1 : Nat) : Int) := Int.ofNat_nonneg _
  have h0 : (0 : Int) ≤ min (100 * ((n + 1 : Nat) : Int)) 100000 := le_min (by omega) (by decide)
  have h1 : min (100 * ((n + 1 : Nat) : Int)) 100000 ≤ 100000 := min_le_right _ _
  rw [Int.tdiv_eq_ediv h0 (by decide)]
  exact int16_t_id _ (by omega) (by omega)

/-- Claim C9. With the ramp enabled, `uart_set_speed[i] = 100` and `target_mrpm[i] = 0`:
over successive `SpeedRamp_Update` calls the native setpoint `target_speeds[i]` never
decreases, the high-resolution setpoint rises by at most `STEP_MRPM = 100` per call,
and the native setpoint never exceeds 100, is below 100 before call 1000 and is
exactly 100 after call 1000 and after every later call. -/
theorem C9_ramp_to_100 (m : MotorFrame) (s : SpeedRamp × MotorPid) (i : Nat) (hi : i < 4)
    (h1 : s.1.target_mrpm.length = 4) (h2 : s.2.target_speeds.length = 4)
    (hon : m.trapezoidEnabled = true) (hcmd : m.uart_set_speed.getD i 0 = 100)
    (hcur : s.1.target_mrpm.getD i 0 = 0) :
    STEP_MRPM = 100 ∧
    (∀ n, 1 ≤ n → (rampRun m n s).2.target_speeds.getD i 0 ≤
      (rampRun m (n + 1) s).2.target_speeds.getD i 0) ∧
    (∀ n, (rampRun m n s).1.target_mrpm.getD i 0 ≤ (rampRun m (n + 1) s).1.target_mrpm.getD i 0 ∧
      (rampRun m (n + 1) s).1.target_mrpm.getD i 0 ≤
        (rampRun m n s).1.target_mrpm.getD i 0 + STEP_MRPM) ∧
    (∀ n, 1 ≤ n → (rampRun m n s).2.target_speeds.getD i 0 ≤ 100) ∧
    (∀ n, 1 ≤ n → n < 1000 → (rampRun m n s).2.target_speeds.getD i 0 < 100) ∧
    (∀ n, 1000 ≤ n → (rampRun m n s).2.target_speeds.getD i 0 = 100) := by
  have key := rampRun_toward_100 m s i hi h1 h2 hon hcmd hcur
  have hsp : ∀ n, 1 ≤ n → (rampRun m n s).2.target_speeds.getD i 0 =
      (min (100 * (n : Int)) 100000) / 1000 := by
    intro n hn
    obtain ⟨k, rfl⟩ : ∃ k, n = k + 1 := ⟨n - 1, by omega⟩
    exact (key k).2
  refine ⟨STEP_MRPM_eq, ?_, ?_, ?_, ?_, ?_⟩
  · intro n hn
    rw [hsp n hn, hsp (n + 1) (by omega)]
    push_cast
    omega
  · intro n
    rw [(key n).1, (key (n + 1)).1, STEP_MRPM_eq]
    push_cast
    omega
  · intro n hn
    rw [hsp n hn]
    omega
  · intro n hn hlt
    rw [hsp n hn]
    omega
  · intro n hn
    rw [hsp n (by omega)]
    omega

theorem C9_ramp_to_100_witness :
    (rampRun { MotorFrame.init with uart_set_speed := [0, 0, 100, 0], trapezoidEnabled := true }
      1000 (⟨[0, 0, 0, 0]⟩, MotorPid.init)).2.target_speeds.getD 2 0 = 100 :=
  (C9_ramp_to_100 _ _ 2 (by decide) (by decide) (by decide) (by decide) (by decide)
    (by decide)).2.2.2.2.2 1000 (by decide)

/-- Claim C10. With the ramp disabled, one `SpeedRamp_Update` sets `target_mrpm[i]` to
`v * 1000` and `target_speeds[i]` to `v` for the commanded `v = uart_set_speed[i]`
in the `int8_t` range, whatever the prior ramp state. -/
theorem C10_ramp_disabled_jumps (m : MotorFrame) (s : SpeedRamp × MotorPid) (i : Nat) (v : Int)
    (hi : i < 4) (h1 : s.1.target_mrpm.length = 4) (h2 : s.2.target_speeds.length = 4)
    (hoff : m.trapezoidEnabled = false) (hv : m.uart_set_speed.getD i 0 = v)
    (hlo : -128 ≤ v) (hhi : v ≤ 127) :
    (SpeedRamp_Update m s).1.target_mrpm.getD i 0 = v * 1000 ∧
    (SpeedRamp_Update m s).2.target_speeds.getD i 0 = v := by
  have h := SpeedRamp_Update_axis m s i hi h1 h2
  have hnext : rampNext m.trapezoidEnabled (m.uart_set_speed.getD i 0)
      (s.1.target_mrpm.getD i 0) = v * 1000 := by
    rw [hoff, hv]
    simp only [rampNext, SCALE_MRPM]
    rw [int32_t_id v (by omega) (by omega), int32_t_id (v * 1000) (by omega) (by omega)]
    rfl
  rw [h.1, h.2.1, hnext]
  refine ⟨rfl, ?_⟩
  rw [SCALE_MRPM, Int.mul_tdiv_cancel _ (by decide), int16_t_id v (by omega) (by omega)]

theorem C10_ramp_disabled_jumps_witness :
    (SpeedRamp_Update { MotorFrame.init with uart_set_speed := [100, -5, 0, -128] }
      (⟨[0, 50, 0, 777]⟩, MotorPid.init)).2.target_speeds.getD 0 0 = 100 :=
  (C10_ramp_disabled_jumps _ _ 0 100 (by decide) (by decide) (by decide) (by decide) (by decide)
    (by decide) (by decide)).2

/-! ## Speed ramp: one step and convergence -/


theorem rampNext_step (v cur : Int) (hv1 : -128 ≤ v) (hv2 : v ≤ 127)
    (hc1 : -2147483648 ≤ cur) (hc2 : cur ≤ 2147483647)
    (hd1 : -2147483648 ≤ v * 1000 - cur) (hd2 : v * 1000 - cur ≤ 2147483647) :
    (v * 1000 - cur > 100 → rampNext true v cur = cur + 100) ∧
    (v * 1000 - cur < -100 → rampNext true v cur = cur - 100) ∧
    (-100 ≤ v * 1000 - cur → v * 1000 - cur ≤ 100 → rampNext true v cur = v * 1000) := by
  simp only [rampNext, SCALE_MRPM, STEP_MRPM_eq, if_true]
  rw [int32_t_id v (by omega) (by omega), int32_t_id (v * 1000) (by omega) (by omega),
    int32_t_id (v * 1000 - cur) hd1 hd2]
  refine ⟨?_, ?_, ?_⟩
  · intro h
    rw [if_pos h, int32_t_id _ (by omega) (by omega)]
  · intro h
    rw [if_neg (by omega), if_pos h, int32_t_id _ (by omega) (by omega)]
  · intro h1 h2
    rw [if_neg (by omega), if_neg (by omega)]

/-- One enabled `SpeedRamp_Update` on a setpoint whose 32-bit difference to the goal does
not wrap: the step is at most `STEP_MRPM`, lands between the old value and the goal, and
is the goal when less than one step remains. -/
theorem ramp_step_of_fit (m : MotorFrame) (s : SpeedRamp × MotorPid) (i : Nat) (v cur : Int)
    (hi : i < 4) (h1 : s.1.target_mrpm.length = 4) (h2 : s.2.target_speeds.length = 4)
    (hon : m.trapezoidEnabled = true) (hv : m.uart_set_speed.getD i 0 = v)
    (hcur : s.1.target_mrpm.getD i 0 = cur)
    (hv1 : -128 ≤ v) (hv2 : v ≤ 127) (hc1 : -2147483648 ≤ cur) (hc2 : cur ≤ 2147483647)
    (hd1 : -2147483648 ≤ v * 1000 - cur) (hd2 : v * 1000 - cur ≤ 2147483647) :
    STEP_MRPM = round ((ACC_RPM_PER_SEC : ℚ) * SCALE_MRPM / TIMER_FREQ_HZ) ∧ STEP_MRPM = 100 ∧
    |(SpeedRamp_Update m s).1.target_mrpm.getD i 0 - cur| ≤ STEP_MRPM ∧
    ((cur ≤ (SpeedRamp_Update m s).1.target_mrpm.getD i 0 ∧
        (SpeedRamp_Update m s).1.target_mrpm.getD i 0 ≤ v * 1000) ∨
      (v * 1000 ≤ (SpeedRamp_Update m s).1.target_mrpm.getD i 0 ∧
        (SpeedRamp_Update m s).1.target_mrpm.getD i 0 ≤ cur)) ∧
    (|v * 1000 - cur| < STEP_MRPM → (SpeedRamp_Update m s).1.target_mrpm.getD i 0 = v * 1000) := by
  have hround : STEP_MRPM = round ((ACC_RPM_PER_SEC : ℚ) * SCALE_MRPM / TIMER_FREQ_HZ) := by
    rw [STEP_MRPM_eq]
    simp [ACC_RPM_PER_SEC, SCALE_MRPM, TIMER_FREQ_HZ]
    norm_num
  have hax := (SpeedRamp_Update_axis m s i hi h1 h2).1
  rw [hon, hv, hcur] at hax
  obtain ⟨hup, hdown, hsnap⟩ := rampNext_step v cur hv1 hv2 hc1 hc2 hd1 hd2
  rw [hax, STEP_MRPM_eq]
  refine ⟨hround, rfl, ?_, ?_, ?_⟩
  · rw [abs_le]
    rcases lt_trichotomy (v * 1000 - cur) (-100) with h | h | h
    · rw [hdown h]; constructor <;> omega
    · rw [hsnap (by omega) (by omega)]; constructor <;> omega
    · rcases le_or_lt (v * 1000 - cur) 100 with h' | h'
      · rw [hsnap (by omega) h']; constructor <;> omega
      · rw [hup h']; constructor <;> omega
  · rcases lt_or_le (v * 1000 - cur) (-100) with h | h
    · right; rw [hdown h]; constructor <;> omega
    · rcases le_or_lt (v * 1000 - cur) 100 with h' | h'
      · rw [hsnap h h']
        rcases le_total cur (v * 1000) with hle | hle
        · left; exact ⟨hle, le_refl _⟩
        · right; exact ⟨le_refl _, hle⟩
      · left; rw [hup h']; constructor <;> omega
  · intro hlt
    rw [abs_lt] at hlt
    exact hsnap (by omega) (by omega)

/-- Every value the ramp stores stays within the range of the goals,
`[-128 * 1000, 127 * 1000]`, once it is in it. -/
theorem rampNext_range (en : Bool) (v cur : Int) (hv1 : -128 ≤ v) (hv2 : v ≤ 127)
    (hc1 : -128000 ≤ cur) (hc2 : cur ≤ 127000) :
    -128000 ≤ rampNext en v cur ∧ rampNext en v cur ≤ 127000 := by
  cases en
  · simp only [rampNext, SCALE_MRPM]
    rw [int32_t_id v (by omega) (by omega), int32_t_id (v * 1000) (by omega) (by omega)]
    constructor <;> simp <;> omega
  · obtain ⟨hup, hdown, hsnap⟩ :=
      rampNext_step v cur hv1 hv2 (by omega) (by omega) (by omega) (by omega)
    rcases lt_or_le (v * 1000 - cur) (-100) with h | h
    · rw [hdown h]; constructor <;> omega
    · rcases le_or_lt (v * 1000 - cur) 100 with h' | h'
      · rw [hsnap h h']; constructor <;> omega
      · rw [hup h']; constructor <;> omega

/-- Invariant of the ramp: after any history of `SpeedRamp_Update` calls with `int8_t`
commands, from a state whose setpoints lie in `[-128000, 127000]`, the arrays keep their
length and every setpoint lies in `[-128000, 127000]`. -/
theorem rampHistory_range (ms : List MotorFrame) (hms : ∀ m ∈ ms, CmdInt8 m)
    (s : SpeedRamp × MotorPid)
    (h1 : s.1.target_mrpm.length = 4) (h2 : s.2.target_speeds.length = 4)
    (hr : ∀ i, i < 4 → -128000 ≤ s.1.target_mrpm.getD i 0 ∧ s.1.target_mrpm.getD i 0 ≤ 127000) :
    (rampHistory ms s).1.target_mrpm.length = 4 ∧
    (rampHistory ms s).2.target_speeds.length = 4 ∧
    (∀ i, i < 4 → -128000 ≤ (rampHistory ms s).1.target_mrpm.getD i 0 ∧
      (rampHistory ms s).1.target_mrpm.getD i 0 ≤ 127000) := by
  induction ms generalizing s with
  | nil => exact ⟨h1, h2, hr⟩
  | cons m ms ih =>
    have hm : CmdInt8 m := hms m (List.mem_cons_self _ _)
    have hax := fun i hi => SpeedRamp_Update_axis m s i hi h1 h2
    simp only [rampHistory, List.foldl_cons]
    apply ih (fun m' hm' => hms m' (List.mem_cons_of_mem _ hm'))
    · exact (hax 0 (by decide)).2.2.1
    · exact (hax 0 (by decide)).2.2.2
    · intro i hi
      rw [(hax i hi).1]
      exact rampNext_range _ _ _ (hm i hi).1 (hm i hi).2 (hr i hi).1 (hr i hi).2

/-- Motor `i` of the ramp state after `n` calls is the `n`-fold iterate of `rampNext`. -/
theorem rampRun_axis (m : MotorFrame) (s : SpeedRamp × MotorPid) (i : Nat) (hi : i < 4)
    (h1 : s.1.target_mrpm.length = 4) (h2 : s.2.target_speeds.length = 4) (n : Nat) :
    (rampRun m n s).1.target_mrpm.getD i 0 =
      Nat.iterate (rampNext m.trapezoidEnabled (m.uart_set_speed.getD i 0)) n
        (s.1.target_mrpm.getD i 0) := by
  induction n with
  | zero => rfl
  | succ n ih =>
    have hl := rampRun_length m s h1 h2 n
    rw [rampRun_succ, (SpeedRamp_Update_axis m _ i hi hl.1 hl.2).1, ih,
      Function.iterate_succ_apply']

/-- One enabled ramp step in terms of the 32-bit difference `diff = goal - cur` the
code computes: the setpoint stays a 32-bit value; a difference of at most one step
gives the goal, a larger one shrinks by exactly one step. -/
theorem rampNext_diff (v c : Int) (hv1 : -128 ≤ v) (hv2 : v ≤ 127) :
    -2147483648 ≤ rampNext true v c ∧ rampNext true v c ≤ 2147483647 ∧
    (-100 ≤ int32_t (v * 1000 - c) → int32_t (v * 1000 - c) ≤ 100 →
      rampNext true v c = v * 1000) ∧
    (100 < int32_t (v * 1000 - c) →
      int32_t (v * 1000 - rampNext true v c) = int32_t (v * 1000 - c) - 100) ∧
    (int32_t (v * 1000 - c) < -100 →
      int32_t (v * 1000 - rampNext true v c) = int32_t (v * 1000 - c) + 100) := by
  simp only [rampNext, SCALE_MRPM, STEP_MRPM_eq, if_true]
  rw [int32_t_id v (by omega) (by omega), int32_t_id (v * 1000) (by omega) (by omega)]
  refine ⟨?_, ?_, ?_, ?_, ?_⟩
  · split_ifs <;> first | omega | (unfold int32_t; omega)
  · split_ifs <;> first | omega | (unfold int32_t; omega)
  · intro h1 h2
    rw [if_neg (by omega), if_neg (by omega)]
  · intro h
    rw [if_pos h]
    unfold int32_t at h ⊢
    omega
  · intro h
    rw [if_neg (by omega), if_pos h]
    unfold int32_t at h ⊢
    omega

/-- Once the 32-bit difference is within `n` steps, `n` enabled ramp steps end at the goal. -/
theorem rampNext_iterate_goal (v : Int) (hv1 : -128 ≤ v) (hv2 : v ≤ 127) (n : Nat) (c : Int)
    (hc1 : -2147483648 ≤ c) (hc2 : c ≤ 2147483647)
    (hlo : -(100 * (n : Int)) ≤ int32_t (v * 1000 - c))
    (hhi : int32_t (v * 1000 - c) ≤ 100 * (n : Int)) :
    Nat.iterate (rampNext true v) n c = v * 1000 := by
  induction n generalizing c with
  | zero =>
    simp only [Function.iterate_zero, id_eq]
    unfold int32_t at hlo hhi
    push_cast at hlo hhi
    omega
  | succ n ih =>
    rw [Function.iterate_succ_apply]
    obtain ⟨r1, r2, hsnap, hup, hdown⟩ := rampNext_diff v c hv1 hv2
    push_cast at hlo hhi
    apply ih _ r1 r2
    · rcases lt_or_le (int32_t (v * 1000 - c)) (-100) with h | h
      · rw [hdown h]; omega
      · rcases le_or_lt (int32_t (v * 1000 - c)) 100 with h' | h'
        · rw [hsnap h h', sub_self]
          have : int32_t 0 = 0 := by decide
          rw [this]; omega
        · rw [hup h']; omega
    · rcases lt_or_le (int32_t (v * 1000 - c)) (-100) with h | h
      · rw [hdown h]; omega
      · rcases le_or_lt (int32_t (v * 1000 - c)) 100 with h' | h'
        · rw [hsnap h h', sub_self]
          have : int32_t 0 = 0 := by decide
          rw [this]; omega
        · rw [hup h']; omega

/-- Claim C12. With the ramp enabled and the command held constant, for every 32-bit
setpoint at distance `d = |goal - cur|` from the goal `v * 1000`: after `ceil(d / 100)`
calls of `SpeedRamp_Update`, and after every larger number of calls, `target_mrpm[i]`
equals the goal exactly. -/
theorem C12_ramp_reaches_goal (m : MotorFrame) (s : SpeedRamp × MotorPid) (i : Nat) (v cur : Int)
    (hi : i < 4) (h1 : s.1.target_mrpm.length = 4) (h2 : s.2.target_speeds.length = 4)
    (hon : m.trapezoidEnabled = true) (hv : m.uart_set_speed.getD i 0 = v)
    (hcur : s.1.target_mrpm.getD i 0 = cur)
    (hv1 : -128 ≤ v) (hv2 : v ≤ 127) (hc1 : -2147483648 ≤ cur) (hc2 : cur ≤ 2147483647)
    (n : Nat) (hn : (|v * 1000 - cur| + 99) / 100 ≤ (n : Int)) :
    (rampRun m n s).1.target_mrpm.getD i 0 = v * 1000 := by
  rw [rampRun_axis m s i hi h1 h2 n, hon, hv, hcur]
  have habs : |v * 1000 - cur| ≤ 100 * (n : Int) := by omega
  rw [abs_le] at habs
  apply rampNext_iterate_goal v hv1 hv2 n cur hc1 hc2
  · unfold int32_t; omega
  · unfold int32_t; omega

theorem C12_ramp_reaches_goal_witness :
    (rampRun { MotorFrame.init with uart_set_speed := [0, 7, 0, 0], trapezoidEnabled := true } 73
      (⟨[0, -250, 0, 0]⟩, MotorPid.init)).1.target_mrpm.getD 1 0 = 7 * 1000 :=
  C12_ramp_reaches_goal _ _ 1 7 (-250) (by decide) (by decide) (by decide) (by decide)
    (by decide) (by decide) (by decide) (by decide) (by decide) (by decide) 73 (by decide)

/-! ## Encoder sampling and accumulated position -/

theorem Timers.get_set (t : Timers) (h : TimHandle) (c : Nat) : (t.set h c).get h = c := by
  cases h <;> rfl

/-- One sample of motor `id`: the returned delta is the counter read as `int16_t`, and
`s_position[id]` grows by it in 32-bit arithmetic. -/
theorem GetEncoder_step (id : MotorID) (st : Encoder × Timers) (hlen : st.1.s_position.length = 4) :
    (GetEncoder id st).2 = int16_t (st.2.get (timerOf id)) ∧
    (GetEncoder id st).1.1.s_position.getD id.toNat 0 =
      int32_t (st.1.s_position.getD id.toNat 0 + int16_t (st.2.get (timerOf id))) ∧
    (GetEncoder id st).1.1.s_position.length = 4 := by
  cases id <;>
    simp only [GetEncoder, GetEncoder_A, GetEncoder_B, GetEncoder_C, GetEncoder_D, Encoder_Read,
      timerOf, MotorID.toNat, List.length_set, hlen, and_true, true_and] <;>
    exact getD_set_self _ _ _ _ (by rw [hlen]; decide)

theorem int32_t_range (x : Int) : -2147483648 ≤ int32_t x ∧ int32_t x ≤ 2147483647 := by
  unfold int32_t; omega

theorem int32_t_add_left (x y : Int) : int32_t (int32_t x + y) = int32_t (x + y) := by
  unfold int32_t; omega

/-- After a run of samples the position of the sampled motor is the 32-bit wrap of the
old position plus the sum of the returned deltas, and the returned deltas are the
counter values read as `int16_t`. -/
theorem sampleRun_position (id : MotorID) (counts : List Nat) (st : Encoder × Timers)
    (hlen : st.1.s_position.length = 4) :
    (sampleRun id st counts).2 = counts.map (fun c : Nat => int16_t (c : Int)) ∧
    int32_t ((sampleRun id st counts).1.1.s_position.getD id.toNat 0) =
      int32_t (st.1.s_position.getD id.toNat 0 + (counts.map (fun c : Nat => int16_t (c : Int))).sum) ∧
    ((-2147483648 ≤ st.1.s_position.getD id.toNat 0 ∧ st.1.s_position.getD id.toNat 0 ≤ 2147483647) →
      (-2147483648 ≤ (sampleRun id st counts).1.1.s_position.getD id.toNat 0 ∧
        (sampleRun id st counts).1.1.s_position.getD id.toNat 0 ≤ 2147483647)) := by
  induction counts generalizing st with
  | nil => simp [sampleRun]
  | cons c cs ih =>
    obtain ⟨hd, hp, hl⟩ := GetEncoder_step id (st.1, st.2.set (timerOf id) c) hlen
    rw [Timers.get_set] at hd hp
    obtain ⟨i1, i2, i3⟩ := ih (GetEncoder id (st.1, st.2.set (timerOf id) c)).1 hl
    simp only [sampleRun, List.map_cons, List.sum_cons]
    refine ⟨by rw [hd, i1], ?_, ?_⟩
    · rw [i2, hp, int32_t_add_left, add_assoc]
    · intro _
      apply i3
      rw [hp]
      exact int32_t_range _

/-- Claim C20, as amended. For every motor, after `Encoder_ResetAll` followed by any
sequence of samples of that motor returning deltas `d1..dn` whose sum lies in the signed
32-bit range, `GetEncoder_Position` of the motor is `(d1 + ... + dn) / 100` truncated
toward zero; each sample returns the counter value read as `int16_t`, unscaled. -/
theorem C20_position_is_sum_over_100 (id : MotorID) (e : Encoder) (t : Timers) (counts : List Nat)
    (hlen : e.s_position.length = 4)
    (hlo : -2147483648 ≤ (counts.map (fun c : Nat => int16_t (c : Int))).sum)
    (hhi : (counts.map (fun c : Nat => int16_t (c : Int))).sum ≤ 2147483647) :
    (sampleRun id (Encoder_ResetAll e, t) counts).2 = counts.map (fun c : Nat => int16_t (c : Int)) ∧
    GetEncoder_Position (sampleRun id (Encoder_ResetAll e, t) counts).1.1 id.toNat =
      Int.tdiv ((sampleRun id (Encoder_ResetAll e, t) counts).2.sum) 100 := by
  have hreset := Encoder_ResetAll_eq e hlen
  have hlen0 : (Encoder_ResetAll e, t).1.s_position.length = 4 := by
    simp only [hreset]; rfl
  have hzero : (Encoder_ResetAll e, t).1.s_position.getD id.toNat 0 = 0 := by
    simp only [hreset]; cases id <;> rfl
  obtain ⟨h1, h2, h3⟩ := sampleRun_position id counts (Encoder_ResetAll e, t) hlen0
  rw [hzero] at h2 h3
  have hr := h3 ⟨by decide, by decide⟩
  rw [int32_t_id _ hr.1 hr.2, zero_add, int32_t_id _ hlo hhi] at h2
  refine ⟨h1, ?_⟩
  have hid : ¬ id.toNat > 3 := by have := id.toNat_lt; omega
  rw [GetEncoder_Position, if_neg hid, h2, h1]

theorem C20_position_is_sum_over_100_witness :
    GetEncoder_Position
      (sampleRun MotorID.MOTOR_B (Encoder_ResetAll Encoder.init, ⟨1, 2, 3, 4⟩) [65000, 65000]).1.1 1
      = -10 :=
  (C20_position_is_sum_over_100 MotorID.MOTOR_B Encoder.init ⟨1, 2, 3, 4⟩ [65000, 65000]
    (by decide) (by decide) (by decide)).2

/-- Counterexample to claim C20 as stated. After `Encoder_ResetAll`, 65539 samples of
motor A that each return the delta 32767 sum to 2147516413, which does not fit the
32-bit `s_position[0]`: `GetEncoder_Position` returns `-21474508`, not
`2147516413 / 100 = 21475164`. -/
theorem C20_position_overflow :
    (sampleRun MotorID.MOTOR_A (Encoder_ResetAll Encoder.init, ⟨0, 0, 0, 0⟩)
      (List.replicate 65539 32767)).2 = List.replicate 65539 32767 ∧
    GetEncoder_Position (sampleRun MotorID.MOTOR_A (Encoder_ResetAll Encoder.init, ⟨0, 0, 0, 0⟩)
      (List.replicate 65539 32767)).1.1 0 = -21474508 ∧
    Int.tdiv ((List.replicate 65539 (32767 : Int)).sum) 100 = 21475164 := by
  have hlen0 : (Encoder_ResetAll Encoder.init, (⟨0, 0, 0, 0⟩ : Timers)).1.s_position.length = 4 := by
    decide
  obtain ⟨h1, h2, h3⟩ := sampleRun_position MotorID.MOTOR_A (List.replicate 65539 32767)
    (Encoder_ResetAll Encoder.init, ⟨0, 0, 0, 0⟩) hlen0
  have hmap : (List.replicate 65539 32767).map (fun c : Nat => int16_t (c : Int)) =
      List.replicate 65539 (32767 : Int) := by
    rw [List.map_replicate]; rfl
  rw [hmap] at h1 h2
  have hsum : (List.replicate 65539 (32767 : Int)).sum = 2147516413 := by
    rw [List.sum_replicate]; norm_num
  have hzero : (Encoder_ResetAll Encoder.init, (⟨0, 0, 0, 0⟩ : Timers)).1.s_position.getD
      MotorID.MOTOR_A.toNat 0 = 0 := by decide
  rw [hzero] at h2 h3
  have hr := h3 ⟨by decide, by decide⟩
  rw [int32_t_id _ hr.1 hr.2, zero_add, hsum] at h2
  refine ⟨h1, ?_, ?_⟩
  · have h2' : (sampleRun MotorID.MOTOR_A (Encoder_ResetAll Encoder.init, ⟨0, 0, 0, 0⟩)
        (List.replicate 65539 32767)).1.1.s_position.getD 0 0 = int32_t 2147516413 := h2
    rw [GetEncoder_Position, if_neg (by decide), h2']
    decide
  · rw [hsum]; decide


/-! ## Telemetry packet -/

theorem length_forty_two {α : Type} (l : List α) (h : l.length = 42) :
    ∃ b0 b1 b2 b3 b4 b5 b6 b7 b8 b9 b10 b11 b12 b13 b14 b15 b16 b17 b18 b19 b20 b21 b22 b23 b24 b25 b26 b27 b28 b29 b30 b31 b32 b33 b34 b35 b36 b37 b38 b39 b40 b41, l = [b0, b1, b2, b3, b4, b5, b6, b7, b8, b9, b10, b11, b12, b13, b14, b15, b16, b17, b18, b19, b20, b21, b22, b23, b24, b25, b26, b27, b28, b29, b30, b31, b32, b33, b34, b35, b36, b37, b38, b39, b40, b41] := by
  rcases l with _ | ⟨b0, _ | ⟨b1, _ | ⟨b2, _ | ⟨b3, _ | ⟨b4, _ | ⟨b5, _ | ⟨b6, _ | ⟨b7, _ | ⟨b8, _ | ⟨b9, _ | ⟨b10, _ | ⟨b11, _ | ⟨b12, _ | ⟨b13, _ | ⟨b14, _ | ⟨b15, _ | ⟨b16, _ | ⟨b17, _ | ⟨b18, _ | ⟨b19, _ | ⟨b20, _ | ⟨b21, _ | ⟨b22, _ | ⟨b23, _ | ⟨b24, _ | ⟨b25, _ | ⟨b26, _ | ⟨b27, _ | ⟨b28, _ | ⟨b29, _ | ⟨b30, _ | ⟨b31, _ | ⟨b32, _ | ⟨b33, _ | ⟨b34, _ | ⟨b35, _ | ⟨b36, _ | ⟨b37, _ | ⟨b38, _ | ⟨b39, _ | ⟨b40, _ | ⟨b41, _ | ⟨x, t⟩⟩⟩⟩⟩⟩⟩⟩⟩⟩⟩⟩⟩⟩⟩⟩⟩⟩⟩⟩⟩⟩⟩⟩⟩⟩⟩⟩⟩⟩⟩⟩⟩⟩⟩⟩⟩⟩⟩⟩⟩⟩⟩ <;>
    simp at h
  exact ⟨b0, b1, b2, b3, b4, b5, b6, b7, b8, b9, b10, b11, b12, b13, b14, b15, b16, b17, b18, b19, b20, b21, b22, b23, b24, b25, b26, b27, b28, b29, b30, b31, b32, b33, b34, b35, b36, b37, b38, b39, b40, b41, rfl⟩

/-- The buffer written by `PreparePacket`, byte by byte; memory after the first 42 bytes
is not touched and the write pointer ends at 42. -/
theorem PreparePacket_run_eq (buf rest : List Nat) (m : MotorFrame) (e : Encoder) (g : MotorPid)
    (hbuf : buf.length = 42) :
    PreparePacket_run (buf ++ rest) m e g =
      ([0x23] ++
        int16_bytes (int16_t (m.uart_set_speed.getD 0 0)) ++
        int16_bytes (int16_t (m.uart_set_speed.getD 1 0)) ++
        int16_bytes (int16_t (m.uart_set_speed.getD 2 0)) ++
        int16_bytes (int16_t (m.uart_set_speed.getD 3 0)) ++
        int32_bytes (int32_t (GetEncoder_Position e 0)) ++
        int32_bytes (int32_t (GetEncoder_Position e 1)) ++
        int32_bytes (int32_t (GetEncoder_Position e 2)) ++
        int32_bytes (int32_t (GetEncoder_Position e 3)) ++
        int32_bytes (int32_t (g.real_speeds.getD 0 0)) ++
        int32_bytes (int32_t (g.real_speeds.getD 1 0)) ++
        int32_bytes (int32_t (g.real_speeds.getD 2 0)) ++
        int32_bytes (int32_t (g.real_speeds.getD 3 0)) ++
        [0x21] ++ rest, 42) := by
  obtain ⟨b0, b1, b2, b3, b4, b5, b6, b7, b8, b9, b10, b11, b12, b13, b14, b15, b16, b17, b18, b19, b20, b21, b22, b23, b24, b25, b26, b27, b28, b29, b30, b31, b32, b33, b34, b35, b36, b37, b38, b39, b40, b41, rfl⟩ := length_forty_two buf hbuf
  simp [PreparePacket_run, range_four, memcpy, int16_bytes, int32_bytes]

theorem tdiv_100_range (x : Int) (h1 : -2147483648 ≤ x) (h2 : x ≤ 2147483647) :
    -2147483648 ≤ Int.tdiv x 100 ∧ Int.tdiv x 100 ≤ 2147483647 := by
  rcases le_total 0 x with h | h
  · rw [Int.tdiv_eq_ediv h (by decide)]; omega
  · obtain ⟨y, rfl⟩ : ∃ y, x = -y := ⟨-x, by omega⟩
    rw [Int.neg_tdiv, Int.tdiv_eq_ediv (by omega) (by decide)]; omega

theorem GetEncoder_Position_range (e : Encoder) (i : Nat)
    (h1 : -2147483648 ≤ e.s_position.getD i 0) (h2 : e.s_position.getD i 0 ≤ 2147483647) :
    -2147483648 ≤ GetEncoder_Position e i ∧ GetEncoder_Position e i ≤ 2147483647 := by
  unfold GetEncoder_Position
  split_ifs
  · decide
  · exact tdiv_100_range _ h1 h2

/-- Claim C13. Telemetry round trip: for every command state in the `int8_t` range and
all 32-bit positions and measured speeds, decoding the buffer written by
`PreparePacket` as little-endian `int16` at offsets 1, 3, 5, 7, little-endian `int32`
at offsets 9, 13, 17, 21 and little-endian `int32` at offsets 25, 29, 33, 37 gives back
`uart_set_speed[i]`, `GetEncoder_Position(i)` and `real_speeds[i]` for `i = 0..3`. -/
theorem C13_telemetry_round_trip (tx : Uart2Tx) (m : MotorFrame) (e : Encoder) (g : MotorPid)
    (htx : tx.txBuf.length = 42)
    (hset : ∀ i, i < 4 → -128 ≤ m.uart_set_speed.getD i 0 ∧ m.uart_set_speed.getD i 0 ≤ 127)
    (hpos : ∀ i, i < 4 →
      -2147483648 ≤ e.s_position.getD i 0 ∧ e.s_position.getD i 0 ≤ 2147483647)
    (hreal : ∀ i, i < 4 →
      -2147483648 ≤ g.real_speeds.getD i 0 ∧ g.real_speeds.getD i 0 ≤ 2147483647) :
    ∀ i, i < 4 →
      le_int16_at (PreparePacket tx m e g).txBuf (1 + 2 * i) = m.uart_set_speed.getD i 0 ∧
      le_int32_at (PreparePacket tx m e g).txBuf (9 + 4 * i) = GetEncoder_Position e i ∧
      le_int32_at (PreparePacket tx m e g).txBuf (25 + 4 * i) = g.real_speeds.getD i 0 := by
  have hP := PreparePacket_run_eq tx.txBuf [] m e g htx
  simp only [List.append_nil] at hP
  intro i hi
  have hs := hset i hi
  have hp := GetEncoder_Position_range e i (hpos i hi).1 (hpos i hi).2
  have hr := hreal i hi
  simp only [PreparePacket, hP]
  interval_cases i <;>
    (simp only [le_int16_at, le_int32_at, int16_bytes, int32_bytes, List.cons_append,
      List.nil_append, List.getD_cons_succ, List.getD_cons_zero, Nat.reduceAdd, Nat.reduceMul,
      List.append_assoc]
     unfold int16_t int32_t
     refine ⟨?_, ?_, ?_⟩ <;> omega)

theorem C13_telemetry_round_trip_witness :
    le_int32_at (PreparePacket Uart2Tx.init { MotorFrame.init with uart_set_speed := [1, -1, 127, -128] }
      ⟨[12345, -12345, 0, 2147483647]⟩ MotorPid.init).txBuf (9 + 4 * 1) =
      GetEncoder_Position ⟨[12345, -12345, 0, 2147483647]⟩ 1 :=
  (C13_telemetry_round_trip Uart2Tx.init { MotorFrame.init with uart_set_speed := [1, -1, 127, -128] }
    ⟨[12345, -12345, 0, 2147483647]⟩ MotorPid.init (by decide) (by decide) (by decide)
    (by decide) 1 (by decide)).2.1

/-- Claim C14. Function `PreparePacket` writes exactly 42 = 1 + 4*2 + 4*4 + 4*4 + 1 bytes:
the write pointer ends at 42, memory after index 41 is unchanged, byte 0 is `0x23`,
bytes 1..8 are the four target speeds as `int16` (2 bytes each), bytes 9..24 the four
scaled positions as `int32` (4 bytes each), bytes 25..40 the four measured speeds as
`int32`, and byte 41 is `0x21`. -/
theorem C14_packet_is_42_bytes (buf rest : List Nat) (m : MotorFrame) (e : Encoder) (g : MotorPid)
    (hbuf : buf.length = 42) :
    TX_PKT_LEN = 1 + 4 * 2 + 4 * 4 + 4 * 4 + 1 ∧
    (PreparePacket_run (buf ++ rest) m e g).2 = 42 ∧
    (PreparePacket_run (buf ++ rest) m e g).1.drop 42 = rest ∧
    (PreparePacket_run (buf ++ rest) m e g).1.take 42 =
      [0x23] ++
        int16_bytes (int16_t (m.uart_set_speed.getD 0 0)) ++
        int16_bytes (int16_t (m.uart_set_speed.getD 1 0)) ++
        int16_bytes (int16_t (m.uart_set_speed.getD 2 0)) ++
        int16_bytes (int16_t (m.uart_set_speed.getD 3 0)) ++
        int32_bytes (int32_t (GetEncoder_Position e 0)) ++
        int32_bytes (int32_t (GetEncoder_Position e 1)) ++
        int32_bytes (int32_t (GetEncoder_Position e 2)) ++
        int32_bytes (int32_t (GetEncoder_Position e 3)) ++
        int32_bytes (int32_t (g.real_speeds.getD 0 0)) ++
        int32_bytes (int32_t (g.real_speeds.getD 1 0)) ++
        int32_bytes (int32_t (g.real_speeds.getD 2 0)) ++
        int32_bytes (int32_t (g.real_speeds.getD 3 0)) ++
        [0x21] ∧
    (PreparePacket_run (buf ++ rest) m e g).1.getD 0 0 = 0x23 ∧
    (PreparePacket_run (buf ++ rest) m e g).1.getD 41 0 = 0x21 ∧
    (∀ v, (int16_bytes v).length = 2) ∧ (∀ v, (int32_bytes v).length = 4) := by
  rw [PreparePacket_run_eq buf rest m e g hbuf]
  refine ⟨rfl, rfl, ?_, ?_, ?_, ?_, fun _ => rfl, fun _ => rfl⟩
  · simp [int16_bytes, int32_bytes]
  · simp [int16_bytes, int32_bytes]
  · simp [int16_bytes, int32_bytes]
  · simp [int16_bytes, int32_bytes]

theorem C14_packet_is_42_bytes_witness :
    (PreparePacket_run (List.replicate 42 7 ++ [9, 9, 9])
      { MotorFrame.init with uart_set_speed := [1, -1, 127, -128] }
      ⟨[12345, -12345, 0, 2147483647]⟩ MotorPid.init).1.drop 42 = [9, 9, 9] :=
  (C14_packet_is_42_bytes (List.replicate 42 7) [9, 9, 9] _ _ _ (by decide)).2.2.1

/-! ## Telemetry transmit handshake -/

theorem Uart2DmaSendPacket_busy (tx : Uart2Tx) (m : MotorFrame) (e : Encoder) (g : MotorPid)
    (status : HAL_StatusTypeDef) (hbusy : tx.txBusy = true) :
    Uart2DmaSendPacket tx m e g status = (tx, none) := by
  unfold Uart2DmaSendPacket
  rw [if_pos hbusy]

theorem PreparePacket_txBusy (tx : Uart2Tx) (m : MotorFrame) (e : Encoder) (g : MotorPid) :
    (PreparePacket tx m e g).txBusy = tx.txBusy := by
  unfold PreparePacket
  rfl

theorem Uart2DmaSendPacket_idle (tx : Uart2Tx) (m : MotorFrame) (e : Encoder) (g : MotorPid)
    (status : HAL_StatusTypeDef) (hidle : tx.txBusy = false) :
    (Uart2DmaSendPacket tx m e g status).2 = some ((PreparePacket tx m e g).txBuf, TX_PKT_LEN) ∧
    (Uart2DmaSendPacket tx m e g status).1.txBusy =
      decide (status = HAL_StatusTypeDef.HAL_OK) := by
  have hb : ¬ tx.txBusy = true := by rw [hidle]; decide
  unfold Uart2DmaSendPacket
  rw [if_neg hb]
  dsimp only
  by_cases h : status = HAL_StatusTypeDef.HAL_OK
  · rw [if_pos h]
    exact ⟨rfl, by simp [h]⟩
  · rw [if_neg h]
    refine ⟨rfl, ?_⟩
    rw [PreparePacket_txBusy, hidle]
    simp [h]

theorem dmaCalls_pair (a b : Option (List Nat × Nat)) :
    dmaCalls [a, b] = (if a.isSome then 1 else 0) + (if b.isSome then 1 else 0) := by
  cases a <;> cases b <;> rfl

/-- Claim C15, as amended. From every idle state, two calls of `Uart2DmaSendPacket` with
no callback in between call `HAL_UART_Transmit_DMA` exactly once when the first call of
the primitive returns `HAL_OK` (whatever the second would return); when the first
submission is not accepted `txBusy` stays false and the second call invokes the
primitive again. -/
theorem C15_send_twice (tx : Uart2Tx) (m m' : MotorFrame) (e e' : Encoder) (g g' : MotorPid)
    (o1 o2 : HAL_StatusTypeDef) (hidle : tx.txBusy = false) :
    (o1 = HAL_StatusTypeDef.HAL_OK →
      dmaCalls [(Uart2DmaSendPacket tx m e g o1).2,
        (Uart2DmaSendPacket (Uart2DmaSendPacket tx m e g o1).1 m' e' g' o2).2] = 1) ∧
    (o1 ≠ HAL_StatusTypeDef.HAL_OK →
      (Uart2DmaSendPacket tx m e g o1).1.txBusy = false ∧
      dmaCalls [(Uart2DmaSendPacket tx m e g o1).2,
        (Uart2DmaSendPacket (Uart2DmaSendPacket tx m e g o1).1 m' e' g' o2).2] = 2) := by
  obtain ⟨hcall, hflag⟩ := Uart2DmaSendPacket_idle tx m e g o1 hidle
  constructor
  · intro h
    have hb : (Uart2DmaSendPacket tx m e g o1).1.txBusy = true := by rw [hflag]; simp [h]
    rw [dmaCalls_pair, hcall, Uart2DmaSendPacket_busy _ m' e' g' o2 hb]
    rfl
  · intro h
    have hb : (Uart2DmaSendPacket tx m e g o1).1.txBusy = false := by rw [hflag]; simp [h]
    rw [dmaCalls_pair, hcall, (Uart2DmaSendPacket_idle _ m' e' g' o2 hb).1]
    exact ⟨hb, rfl⟩

theorem C15_send_twice_witness :
    dmaCalls [(Uart2DmaSendPacket Uart2Tx.init MotorFrame.init Encoder.init MotorPid.init
        HAL_StatusTypeDef.HAL_OK).2,
      (Uart2DmaSendPacket (Uart2DmaSendPacket Uart2Tx.init MotorFrame.init Encoder.init MotorPid.init
        HAL_StatusTypeDef.HAL_OK).1 MotorFrame.init Encoder.init MotorPid.init
        HAL_StatusTypeDef.HAL_ERROR).2] = 1 :=
  (C15_send_twice Uart2Tx.init MotorFrame.init MotorFrame.init Encoder.init Encoder.init
    MotorPid.init MotorPid.init HAL_StatusTypeDef.HAL_OK HAL_StatusTypeDef.HAL_ERROR
    (by decide)).1 (by decide)

/-- Counterexample to claim C15 as stated. From the idle start-up state, when the first
call of the primitive returns `HAL_BUSY`, two calls of `Uart2DmaSendPacket` invoke the
primitive twice. -/
theorem C15_two_transmissions :
    Uart2Tx.init.txBusy = false ∧
    dmaCalls [(Uart2DmaSendPacket Uart2Tx.init MotorFrame.init Encoder.init MotorPid.init
        HAL_StatusTypeDef.HAL_BUSY).2,
      (Uart2DmaSendPacket (Uart2DmaSendPacket Uart2Tx.init MotorFrame.init Encoder.init MotorPid.init
        HAL_StatusTypeDef.HAL_BUSY).1 MotorFrame.init Encoder.init MotorPid.init
        HAL_StatusTypeDef.HAL_OK).2] = 2 := by
  decide

/-- Claim C16, as amended. A call of `HAL_UART_TxCpltCallback` or of
`HAL_UART_ErrorCallback` whose handle has `Instance == USART2` leaves `txBusy` false,
for every prior state; a call for any other instance leaves the state unchanged. -/
theorem C16_callbacks_clear_busy (USART2 : Nat) (tx : Uart2Tx) (huart : UART_HandleTypeDef) :
    (huart.Instance = USART2 →
      (HAL_UART_TxCpltCallback USART2 tx huart).txBusy = false ∧
      (HAL_UART_ErrorCallback USART2 tx huart).txBusy = false) ∧
    (huart.Instance ≠ USART2 →
      HAL_UART_TxCpltCallback USART2 tx huart = tx ∧
      HAL_UART_ErrorCallback USART2 tx huart = tx) := by
  constructor
  · intro h
    simp [HAL_UART_TxCpltCallback, HAL_UART_ErrorCallback, h]
  · intro h
    simp [HAL_UART_TxCpltCallback, HAL_UART_ErrorCallback, h]

theorem C16_callbacks_clear_busy_witness :
    (HAL_UART_TxCpltCallback 0x40004400 { Uart2Tx.init with txBusy := true } ⟨0x40004400⟩).txBusy
      = false :=
  ((C16_callbacks_clear_busy 0x40004400 { Uart2Tx.init with txBusy := true } ⟨0x40004400⟩).1
    (by decide)).1

/-- Counterexample to claim C16 as stated. With `USART2` at `0x40004400`, the completion
and error callbacks for a handle whose instance is `0x40013800` (another UART) leave
`txBusy` true. -/
theorem C16_other_instance_keeps_busy :
    (HAL_UART_TxCpltCallback 0x40004400 { Uart2Tx.init with txBusy := true } ⟨0x40013800⟩).txBusy
      = true ∧
    (HAL_UART_ErrorCallback 0x40004400 { Uart2Tx.init with txBusy := true } ⟨0x40013800⟩).txBusy
      = true := by
  decide

/-- Claim C17. When `txBusy` is set, `Uart2DmaSendPacket` has no effect: the state
(`txBuf` byte for byte, `txBusy` still true) is unchanged and the transmit primitive
is not called; so the function never changes `txBusy` from true to false. -/
theorem C17_busy_send_is_noop (tx : Uart2Tx) (m : MotorFrame) (e : Encoder) (g : MotorPid)
    (status : HAL_StatusTypeDef) (hbusy : tx.txBusy = true) :
    (Uart2DmaSendPacket tx m e g status).1.txBuf = tx.txBuf ∧
    (Uart2DmaSendPacket tx m e g status).1.txBusy = true ∧
    (Uart2DmaSendPacket tx m e g status).2 = none := by
  rw [Uart2DmaSendPacket_busy tx m e g status hbusy]
  exact ⟨rfl, hbusy, rfl⟩

theorem C17_busy_send_is_noop_witness :
    (Uart2DmaSendPacket { Uart2Tx.init with txBusy := true } MotorFrame.init Encoder.init
      MotorPid.init HAL_StatusTypeDef.HAL_OK).2 = none :=
  (C17_busy_send_is_noop { Uart2Tx.init with txBusy := true } MotorFrame.init Encoder.init
    MotorPid.init HAL_StatusTypeDef.HAL_OK (by decide)).2.2


/-! ## Independence of frame decoding from the reset detector; tail mismatch -/

/-- Claim C18. The reset detector never interferes with frame decoding: for every byte
stream and every two initial states that differ only in the detector's variables
(`seqBuf`, `seqPos`) and in the positions, after each byte the frame decoder's variables
(`rxState`, `rxIndex`, `rxBuf`) and the command variables are identical, and equal to
those of the frame state machine (`frameSwitch`) run alone; in particular every valid
frame, also one whose payload contains `0x21, 0x40, 0x21`, is committed with its exact
payload. -/
theorem C18_detector_does_not_interfere (bytes : List Nat) (m m' : MotorFrame) (e e' : Encoder)
    (hsame : dropSeq m = dropSeq m') :
    (∀ k, dropSeq (feed (m, e) (bytes.take k)).1 = dropSeq (feed (m', e') (bytes.take k)).1 ∧
      dropSeq (feed (m, e) (bytes.take k)).1 = (bytes.take k).foldl frameSwitch (dropSeq m)) ∧
    (∀ p : List Nat, m.rxState = RX_WAIT_HEAD → FrameWF m → p.length = 9 →
      command (feed (m, e) (frame p)).1 = decoded p) := by
  constructor
  · intro k
    rw [dropSeq_feed, dropSeq_feed]
    exact ⟨by rw [hsame], rfl⟩
  · intro p hs hwf hp
    have hsw := frameSwitch_frame (dropSeq m) p hs hwf hp
    simp only [] at hsw
    obtain ⟨a1, a2, a3, -⟩ := hsw
    rw [command_feed]
    simp only [command, decoded, a1, a2, a3, Nat.testBit_zero]

theorem C18_detector_does_not_interfere_witness :
    command (feed (MotorFrame.init, Encoder.init) (frame [1, 2, 3, 4, 1, 0x21, 0x40, 0x21, 5])).1 =
      decoded [1, 2, 3, 4, 1, 0x21, 0x40, 0x21, 5] :=
  (C18_detector_does_not_interfere [] MotorFrame.init
    { MotorFrame.init with seqBuf := [0x21, 0x40, 7], seqPos := 2 } Encoder.init ⟨[5, 5, 5, 5]⟩
    (by decide)).2 [1, 2, 3, 4, 1, 0x21, 0x40, 0x21, 5] (by decide) (by decide) (by decide)

/-- Claim C19. In `RX_WAIT_TAIL`, a byte other than `0x21` leaves the command variables
unchanged; every byte returns the decoder to `RX_WAIT_HEAD`; and a valid frame that
starts with the very next byte is committed with its exact payload. -/
theorem C19_tail_mismatch_resyncs (m : MotorFrame) (e : Encoder) (b : Nat)
    (hs : m.rxState = RX_WAIT_TAIL) (hwf : FrameWF m) :
    (b ≠ 0x21 → command (MotorFrame_UART2_RxCallback (m, e) b).1 = command m) ∧
    (MotorFrame_UART2_RxCallback (m, e) b).1.rxState = RX_WAIT_HEAD ∧
    (∀ p : List Nat, p.length = 9 →
      command (feed (m, e) (b :: frame p)).1 = decoded p ∧
      (feed (m, e) (b :: frame p)).1.rxState = RX_WAIT_HEAD) := by
  have hcb := dropSeq_callback (m, e) b
  have hst : (frameSwitch (dropSeq m) b).rxState = RX_WAIT_HEAD :=
    frameSwitch_tail_state (dropSeq m) b hs
  have hwf' : FrameWF (frameSwitch (dropSeq m) b) := frameSwitch_wf (dropSeq m) b hwf
  refine ⟨?_, ?_, ?_⟩
  · intro hb
    rw [← command_dropSeq, hcb, command_frameSwitch (dropSeq m) b (fun h => hb h.2),
      command_dropSeq]
  · have : (dropSeq (MotorFrame_UART2_RxCallback (m, e) b).1).rxState = RX_WAIT_HEAD := by
      rw [hcb]; exact hst
    exact this
  · intro p hp
    have hsw := frameSwitch_frame _ p hst hwf' hp
    simp only [] at hsw
    obtain ⟨a1, a2, a3, a4, -⟩ := hsw
    rw [command_feed, rxState_feed, List.foldl_cons]
    exact ⟨by simp only [command, decoded, a1, a2, a3, Nat.testBit_zero], a4⟩

theorem C19_tail_mismatch_resyncs_witness :
    command (feed ({ MotorFrame.init with rxState := RX_WAIT_TAIL }, Encoder.init)
      (0x23 :: frame [1, 2, 3, 4, 1, 6, 7, 8, 9])).1 = decoded [1, 2, 3, 4, 1, 6, 7, 8, 9] :=
  ((C19_tail_mismatch_resyncs { MotorFrame.init with rxState := RX_WAIT_TAIL } Encoder.init 0x23
    (by decide) (by decide)).2.2 [1, 2, 3, 4, 1, 6, 7, 8, 9] (by decide)).1

/-! ## Control tick -/

/-- The PID step reads the setpoint only through the 32-bit difference
`setpoint - real_speed`, so a wrapped setpoint gives the same step. -/
theorem PID_Control_state_wrap_setpoint (state : PID_State) (x r : Int) :
    PID_Control_state state (int32_t x) r = PID_Control_state state x r := by
  have h : int32_t (int32_t x - r) = int32_t (x - r) := by unfold int32_t; omega
  rw [PID_Control_state_eq, PID_Control_state_eq, h]

/-- Output and new PID state of motor `id` after `Update_Motors`. -/
theorem Update_Motors_axis (m : MotorFrame) (g : MotorPid) (ts rs outs : List Int) (id : MotorID)
    (hms : g.motor_states.length = 4) (hout : outs.length = 4) :
    (Update_Motors m g ts rs outs).2.getD id.toNat 0 =
      (PID_Control_state (g.motor_states.getD id.toNat default)
        (ts.getD id.toNat 0 + m.uart_angle_velocity.getD id.toNat 0) (rs.getD id.toNat 0)).2 ∧
    (Update_Motors m g ts rs outs).1.motor_states.getD id.toNat default =
      (PID_Control_state (g.motor_states.getD id.toNat default)
        (ts.getD id.toNat 0 + m.uart_angle_velocity.getD id.toNat 0) (rs.getD id.toNat 0)).1 := by
  obtain ⟨s0, s1, s2, s3, hms⟩ := length_four _ hms
  obtain ⟨o0, o1, o2, o3, hout⟩ := length_four _ hout
  cases id <;>
    simp [Update_Motors, PID_Control, MotorID.toNat, hms, hout, PID_Control_state_wrap_setpoint]

theorem Update_Motors_real_speeds (m : MotorFrame) (g : MotorPid) (ts rs outs : List Int) :
    (Update_Motors m g ts rs outs).1.real_speeds = g.real_speeds ∧
    (Update_Motors m g ts rs outs).1.target_speeds = g.target_speeds := by
  simp [Update_Motors, PID_Control]

/-- The deltas returned by the four samples of one tick. -/
theorem tick_deltas (e : Encoder) (t : Timers) :
    (GetEncoder_A (e, t)).2 = int16_t t.cnt2 ∧
    (GetEncoder_B (GetEncoder_A (e, t)).1).2 = int16_t t.cnt3 ∧
    (GetEncoder_C (GetEncoder_B (GetEncoder_A (e, t)).1).1).2 = int16_t t.cnt4 ∧
    (GetEncoder_D (GetEncoder_C (GetEncoder_B (GetEncoder_A (e, t)).1).1).1).2 = int16_t t.cnt5 :=
  ⟨rfl, rfl, rfl, rfl⟩

/-- Reading back one of four consecutive array writes. -/
theorem list_set_four (d1 d2 d3 d4 : Int) (rs : List Int) (hrs : rs.length = 4)
    (k : MotorID) :
    ((((rs.set MotorID.MOTOR_A.toNat d1).set MotorID.MOTOR_B.toNat
        d2).set MotorID.MOTOR_C.toNat
        d3).set MotorID.MOTOR_D.toNat
        d4).getD k.toNat 0 =
      (match k with | .MOTOR_A => d1 | .MOTOR_B => d2 | .MOTOR_C => d3 | .MOTOR_D => d4) := by
  obtain ⟨r0, r1, r2, r3, rfl⟩ := length_four _ hrs
  cases k <;> rfl

/-- The four samples of one tick store each motor's own counter, read as `int16_t`, in
`real_speeds`. -/
theorem tick_real_speeds (e : Encoder) (t : Timers) (rs : List Int) (hrs : rs.length = 4)
    (k : MotorID) :
    ((((rs.set MotorID.MOTOR_A.toNat (GetEncoder_A (e, t)).2).set MotorID.MOTOR_B.toNat
        (GetEncoder_B (GetEncoder_A (e, t)).1).2).set MotorID.MOTOR_C.toNat
        (GetEncoder_C (GetEncoder_B (GetEncoder_A (e, t)).1).1).2).set MotorID.MOTOR_D.toNat
        (GetEncoder_D (GetEncoder_C (GetEncoder_B (GetEncoder_A (e, t)).1).1).1).2).getD k.toNat 0 =
      int16_t (t.get (timerOf k)) := by
  obtain ⟨d1, d2, d3, d4⟩ := tick_deltas e t
  rw [d1, d2, d3, d4, list_set_four _ _ _ _ rs hrs k]
  cases k <;> simp only [timerOf, Timers.get]

/-- One control tick seen from motor `id`: the measurement is the motor's own counter read
as `int16_t`, and the output handed to the actuation is the PID step of that motor. -/
theorem Motor_Speed_PID_Control_axis (m : MotorFrame) (st : (Encoder × Timers) × MotorPid)
    (id : MotorID) (hms : st.2.motor_states.length = 4) (hrs : st.2.real_speeds.length = 4)
    (hpw : st.2.pwm_outputs.length = 4) :
    (Motor_Speed_PID_Control m st).1.2.real_speeds.getD id.toNat 0 =
      int16_t (st.1.2.get (timerOf id)) ∧
    (Motor_Speed_PID_Control m st).1.2.pwm_outputs.getD id.toNat 0 =
      (PID_Control_state (st.2.motor_states.getD id.toNat default)
        (st.2.target_speeds.getD id.toNat 0 + m.uart_angle_velocity.getD id.toNat 0)
        (int16_t (st.1.2.get (timerOf id)))).2 ∧
    (Motor_Speed_PID_Control m st).1.2.motor_states.getD id.toNat default =
      (PID_Control_state (st.2.motor_states.getD id.toNat default)
        (st.2.target_speeds.getD id.toNat 0 + m.uart_angle_velocity.getD id.toNat 0)
        (int16_t (st.1.2.get (timerOf id)))).1 := by
  obtain ⟨⟨e, t⟩, g⟩ := st
  simp only at hms hrs hpw
  have hreal := tick_real_speeds e t g.real_speeds hrs id
  simp only [Motor_Speed_PID_Control]
  generalize ((((g.real_speeds.set MotorID.MOTOR_A.toNat (GetEncoder_A (e, t)).2).set
    MotorID.MOTOR_B.toNat (GetEncoder_B (GetEncoder_A (e, t)).1).2).set MotorID.MOTOR_C.toNat
    (GetEncoder_C (GetEncoder_B (GetEncoder_A (e, t)).1).1).2).set MotorID.MOTOR_D.toNat
    (GetEncoder_D (GetEncoder_C (GetEncoder_B (GetEncoder_A (e, t)).1).1).1).2) = rs at hreal ⊢
  have hU := Update_Motors_axis m { g with real_speeds := rs } g.target_speeds rs g.pwm_outputs id
    hms hpw
  rw [hreal] at hU
  refine ⟨?_, hU.1, hU.2⟩
  rw [(Update_Motors_real_speeds m _ _ _ _).1]
  exact hreal

/-- Claim C21. In one control tick, for each motor `id` of A..D, `Update_Motors` sets
`outputs[id]` to the result of the PID step on that motor's own PID state with setpoint
`target_speeds[id] + uart_angle_velocity[id]` and measurement `real_speeds[id]`, and
stores that step's new state; the output and the new state of motor `id` are the same
in any two runs that agree on motor `id`'s state and inputs, whatever the other
motors hold. In `Motor_Speed_PID_Control` the measurement is the motor's own sampled
delta. -/
theorem C21_update_motors_per_axis (m : MotorFrame) (g : MotorPid) (ts rs outs : List Int)
    (id : MotorID) (hms : g.motor_states.length = 4) (hout : outs.length = 4) :
    (Update_Motors m g ts rs outs).2.getD id.toNat 0 =
      (PID_Control_state (g.motor_states.getD id.toNat default)
        (ts.getD id.toNat 0 + m.uart_angle_velocity.getD id.toNat 0) (rs.getD id.toNat 0)).2 ∧
    (Update_Motors m g ts rs outs).1.motor_states.getD id.toNat default =
      (PID_Control_state (g.motor_states.getD id.toNat default)
        (ts.getD id.toNat 0 + m.uart_angle_velocity.getD id.toNat 0) (rs.getD id.toNat 0)).1 ∧
    (∀ (m' : MotorFrame) (g' : MotorPid) (ts' rs' outs' : List Int),
      g'.motor_states.length = 4 → outs'.length = 4 →
      g'.motor_states.getD id.toNat default = g.motor_states.getD id.toNat default →
      ts'.getD id.toNat 0 = ts.getD id.toNat 0 →
      m'.uart_angle_velocity.getD id.toNat 0 = m.uart_angle_velocity.getD id.toNat 0 →
      rs'.getD id.toNat 0 = rs.getD id.toNat 0 →
      (Update_Motors m' g' ts' rs' outs').2.getD id.toNat 0 =
        (Update_Motors m g ts rs outs).2.getD id.toNat 0 ∧
      (Update_Motors m' g' ts' rs' outs').1.motor_states.getD id.toNat default =
        (Update_Motors m g ts rs outs).1.motor_states.getD id.toNat default) ∧
    (∀ (et : Encoder × Timers), g.real_speeds.length = 4 → g.pwm_outputs.length = 4 →
      (Motor_Speed_PID_Control m (et, g)).1.2.pwm_outputs.getD id.toNat 0 =
        (PID_Control_state (g.motor_states.getD id.toNat default)
          (g.target_speeds.getD id.toNat 0 + m.uart_angle_velocity.getD id.toNat 0)
          (int16_t (et.2.get (timerOf id)))).2) := by
  have h := Update_Motors_axis m g ts rs outs id hms hout
  refine ⟨h.1, h.2, ?_, ?_⟩
  · intro m' g' ts' rs' outs' hms' hout' e1 e2 e3 e4
    have h' := Update_Motors_axis m' g' ts' rs' outs' id hms' hout'
    rw [h'.1, h'.2, h.1, h.2, e1, e2, e3, e4]
    exact ⟨rfl, rfl⟩
  · intro et hrs hpw
    exact (Motor_Speed_PID_Control_axis m (et, g) id hms hrs hpw).2.1

theorem C21_update_motors_per_axis_witness :
    (Update_Motors { MotorFrame.init with uart_angle_velocity := [1, -2, 3, 0] } MotorPid.init
      [10, 20, -30, 0] [9, 25, -20, 0] [0, 0, 0, 0]).2.getD 1 0 = -441 :=
  (C21_update_motors_per_axis { MotorFrame.init with uart_angle_velocity := [1, -2, 3, 0] }
    MotorPid.init [10, 20, -30, 0] [9, 25, -20, 0] [0, 0, 0, 0] MotorID.MOTOR_B
    (by decide) (by decide)).1

/-! ## Reset detector: no re-trigger, sliding-window reading -/

theorem seqDetect_fired (m : MotorFrame) (b : Nat) :
    (seqDetect m b).2 = (seqStep m.seqBuf m.seqPos b).2.2 := by
  rw [seqDetect_eq_seqStep]

/-- One callback refines one step of the sliding window. -/
theorem callback_refines_window (h : List Nat) (st : MotorFrame × Encoder) (b : Nat)
    (hR : RingHolds h st.1) :
    (seqDetect st.1 b).2 = (windowStep h b).2 ∧
    RingHolds (windowStep h b).1 (MotorFrame_UART2_RxCallback st b).1 := by
  obtain ⟨c1, c2, -⟩ := callback_seq st b
  rw [seqDetect_fired]
  unfold RingHolds
  rw [c1, c2]
  rcases hR with ⟨hp, hb⟩ | ⟨hp, hb⟩ | ⟨hp, hb⟩ <;> rw [hp, hb]
  · rw [seqStep_pos0]
    rcases h with _ | ⟨y, _ | ⟨x, t⟩⟩ <;> simp [windowStep]
    split_ifs <;> simp_all
  · rw [seqStep_pos1]
    rcases h with _ | ⟨y, _ | ⟨x, t⟩⟩ <;> simp [windowStep]
    split_ifs <;> simp_all
  · rw [seqStep_pos2]
    rcases h with _ | ⟨y, _ | ⟨x, t⟩⟩ <;> simp [windowStep]
    split_ifs <;> simp_all

theorem RingHolds_cleared (m : MotorFrame) (hbuf : m.seqBuf = [0, 0, 0]) (hpos : m.seqPos = 0) :
    RingHolds [] m :=
  Or.inl ⟨hpos, by rw [hbuf]; rfl⟩

/-- Along every stream the callback calls `Encoder_ResetAll` exactly where the sliding
window fires. -/
theorem resets_eq_windowResets (bytes : List Nat) (h : List Nat) (st : MotorFrame × Encoder)
    (hR : RingHolds h st.1) :
    resets st bytes = windowResets h bytes ∧
    RingHolds (windowHist h bytes) (feed st bytes).1 := by
  induction bytes generalizing h st with
  | nil => exact ⟨rfl, hR⟩
  | cons b bs ih =>
    obtain ⟨hf, hR'⟩ := callback_refines_window h st b hR
    obtain ⟨i1, i2⟩ := ih (windowStep h b).1 (MotorFrame_UART2_RxCallback st b) hR'
    simp only [resets, windowResets, windowHist, feed, List.foldl_cons] at i1 i2 ⊢
    exact ⟨by rw [hf, i1], i2⟩

/-- A detection clears the ring and rewinds the write position. -/
theorem seqStep_fired_clears (x y z pos b : Nat) (hpos : pos < 3)
    (hf : (seqStep [x, y, z] pos b).2.2 = true) :
    (seqStep [x, y, z] pos b).1 = [0, 0, 0] ∧ (seqStep [x, y, z] pos b).2.1 = 0 := by
  interval_cases pos
  · rw [seqStep_pos0] at hf ⊢
    split_ifs at hf ⊢
    simp_all
  · rw [seqStep_pos1] at hf ⊢
    split_ifs at hf ⊢
    simp_all
  · rw [seqStep_pos2] at hf ⊢
    split_ifs at hf ⊢
    simp_all

/-- Claim C22. After the detector fires, its window is cleared, so overlapping matches do
not re-trigger: for the stream `0x21, 0x40, 0x21, 0x40, 0x21` from the cleared detector
state `Encoder_ResetAll` is called on the third byte and on no other; in general a call
that fires leaves the ring cleared, and neither of the next two calls fires, whatever
their bytes (the last byte of a match is never reused). -/
theorem C22_no_retrigger_on_overlap (m : MotorFrame) (e : Encoder)
    (hbuf : m.seqBuf = [0, 0, 0]) (hpos : m.seqPos = 0) :
    resets (m, e) [0x21, 0x40, 0x21, 0x40, 0x21] = [false, false, true, false, false] ∧
    (∀ (m' : MotorFrame) (e' : Encoder) (b b1 b2 : Nat), SeqWF m' → (seqDetect m' b).2 = true →
      (MotorFrame_UART2_RxCallback (m', e') b).1.seqBuf = [0, 0, 0] ∧
      (MotorFrame_UART2_RxCallback (m', e') b).1.seqPos = 0 ∧
      resets (MotorFrame_UART2_RxCallback (m', e') b) [b1, b2] = [false, false]) := by
  constructor
  · rw [(resets_eq_windowResets _ [] (m, e) (RingHolds_cleared m hbuf hpos)).1]
    decide
  · intro m' e' b b1 b2 hwf hf
    obtain ⟨hlen, hlt⟩ := hwf
    obtain ⟨x, y, z, hxyz⟩ := length_three _ hlen
    obtain ⟨c1, c2, -⟩ := callback_seq (m', e') b
    rw [seqDetect_fired] at hf
    simp only [hxyz] at hf c1 c2
    obtain ⟨k1, k2⟩ := seqStep_fired_clears x y z m'.seqPos b hlt hf
    rw [k1] at c1
    rw [k2] at c2
    refine ⟨c1, c2, ?_⟩
    rw [(resets_eq_windowResets _ [] _ (RingHolds_cleared _ c1 c2)).1]
    simp [windowResets, windowStep]

theorem C22_no_retrigger_on_overlap_witness :
    resets (MotorFrame.init, Encoder.init) [0x21, 0x40, 0x21, 0x40, 0x21] =
      [false, false, true, false, false] :=
  (C22_no_retrigger_on_overlap MotorFrame.init Encoder.init (by decide) (by decide)).1

/-- Claim C26. The ring `seqBuf`/`seqPos` is equivalent to a plain sliding window: from the
cleared detector state, for every byte stream, the callback calls `Encoder_ResetAll` on
exactly the bytes on which the sliding window fires, that is, when the last three bytes
received since the most recent detection (or since start) are `0x21, 0x40, 0x21` in that
order; a call that does not fire leaves the positions unchanged. -/
theorem C26_ring_is_sliding_window (m : MotorFrame) (e : Encoder)
    (hbuf : m.seqBuf = [0, 0, 0]) (hpos : m.seqPos = 0) (bytes : List Nat) (b : Nat) :
    resets (m, e) bytes = windowResets [] bytes ∧
    ((seqDetect (feed (m, e) bytes).1 b).2 = true ↔
      ∃ t, b :: windowHist [] bytes = 0x21 :: 0x40 :: 0x21 :: t) ∧
    ((seqDetect (feed (m, e) bytes).1 b).2 = true →
      (MotorFrame_UART2_RxCallback (feed (m, e) bytes) b).2 =
        Encoder_ResetAll (feed (m, e) bytes).2) ∧
    ((seqDetect (feed (m, e) bytes).1 b).2 = false →
      (MotorFrame_UART2_RxCallback (feed (m, e) bytes) b).2 = (feed (m, e) bytes).2) := by
  obtain ⟨h1, h2⟩ := resets_eq_windowResets bytes [] (m, e) (RingHolds_cleared m hbuf hpos)
  obtain ⟨hf, -⟩ := callback_refines_window _ (feed (m, e) bytes) b h2
  obtain ⟨-, -, c3⟩ := callback_seq (feed (m, e) bytes) b
  rw [← seqDetect_fired] at c3
  refine ⟨h1, ?_, ?_, ?_⟩
  · rw [hf]
    generalize windowHist [] bytes = h
    rcases h with _ | ⟨y, _ | ⟨x, t⟩⟩
    · simp [windowStep]
    · simp [windowStep]
    · simp only [windowStep]
      by_cases hc : x = 0x21 ∧ y = 0x40 ∧ b = 0x21
      · rw [if_pos hc]
        obtain ⟨rfl, rfl, rfl⟩ := hc
        simp
      · rw [if_neg hc]
        simp only [Bool.false_eq_true, false_iff, not_exists]
        intro t' ht
        simp only [List.cons.injEq] at ht
        exact hc ⟨ht.2.2.1, ht.2.1, ht.1⟩
  · intro hfire
    rw [c3, if_pos hfire]
  · intro hno
    rw [c3, hno]
    rfl

theorem C26_ring_is_sliding_window_witness :
    resets (MotorFrame.init, Encoder.init) [0x21, 0x40, 0x21, 0x21, 0x40, 0x21, 7, 0x21] =
      windowResets [] [0x21, 0x40, 0x21, 0x21, 0x40, 0x21, 7, 0x21] :=
  (C26_ring_is_sliding_window MotorFrame.init Encoder.init (by decide) (by decide)
    [0x21, 0x40, 0x21, 0x21, 0x40, 0x21, 7, 0x21] 0).1

/-! ## Encoder read, decoder index bounds, PID arithmetic range -/

/-- Claim C23. The sampled delta is wrap-aware: when the counter was zeroed at the previous
sample and the true signed count change `d` since then satisfies `-32768 ≤ d < 32768`, so
that the counter holds `d mod 2^16`, `Encoder_Read` returns exactly `d` and leaves the
counter at zero. -/
theorem C23_encoder_read_wrap_aware (t : Timers) (htim : TimHandle) (d : Int)
    (hlo : -32768 ≤ d) (hhi : d < 32768) (hcnt : t.get htim = (d % 65536).toNat) :
    (Encoder_Read t htim).2 = d ∧ (Encoder_Read t htim).1.get htim = 0 := by
  constructor
  · simp only [Encoder_Read, hcnt]
    unfold int16_t
    omega
  · simp only [Encoder_Read]
    exact Timers.get_set t htim 0

theorem C23_encoder_read_wrap_aware_witness :
    (Encoder_Read ⟨1, 65236, 3, 4⟩ TimHandle.htim3).2 = -300 :=
  (C23_encoder_read_wrap_aware ⟨1, 65236, 3, 4⟩ TimHandle.htim3 (-300) (by decide) (by decide)
    (by decide)).1

theorem frameSwitch_rxBuf (m : MotorFrame) (b : Nat) :
    (frameSwitch m b).rxBuf =
      match rxWriteIndex m b with
      | some i => m.rxBuf.set i b
      | none => m.rxBuf := by
  unfold frameSwitch rxWriteIndex
  dsimp only
  split_ifs <;> simp [parseFrame, range_four]

theorem rxWriteIndex_lt (m : MotorFrame) (b i : Nat) (hinv : FrameInv m)
    (hw : rxWriteIndex m b = some i) : i < 11 := by
  obtain ⟨-, h | ⟨h, h1, h2⟩ | h⟩ := hinv
  · unfold rxWriteIndex at hw
    rw [if_pos h] at hw
    split_ifs at hw
    simp only [Option.some.injEq] at hw
    omega
  · have hne : ¬ m.rxState = RX_WAIT_HEAD := by rw [h]; decide
    unfold rxWriteIndex at hw
    rw [if_neg hne, if_pos h] at hw
    simp only [Option.some.injEq] at hw
    omega
  · have hne : ¬ m.rxState = RX_WAIT_HEAD := by rw [h]; decide
    have hne2 : ¬ m.rxState = RX_RECV_DATA := by rw [h]; decide
    unfold rxWriteIndex at hw
    rw [if_neg hne, if_neg hne2, if_pos h] at hw
    split_ifs at hw
    simp only [Option.some.injEq, TAIL_INDEX, FRAME_LEN] at hw
    omega

/-- Claim C24. In every decoder state reached from a state waiting for a header (in
particular the start-up state `RX_WAIT_HEAD`, `rxIndex = 0`) under any byte stream:
`rxState` is one of the three enumerators, `rxIndex` is in 1..9 whenever
`rxState = RX_RECV_DATA`, `rxBuf` keeps its 11 entries, and the index the switch writes
on the next byte (`rxBuf[0]`, `rxBuf[rxIndex]` or `rxBuf[TAIL_INDEX]`) is below 11. -/
theorem C24_decoder_indices_in_bounds (m : MotorFrame) (e : Encoder) (bytes : List Nat)
    (hs : m.rxState = RX_WAIT_HEAD) (hwf : FrameWF m) :
    MotorFrame.init.rxState = RX_WAIT_HEAD ∧ MotorFrame.init.rxIndex = 0 ∧
    FrameWF MotorFrame.init ∧
    ((feed (m, e) bytes).1.rxState = RX_WAIT_HEAD ∨
      (feed (m, e) bytes).1.rxState = RX_RECV_DATA ∨
      (feed (m, e) bytes).1.rxState = RX_WAIT_TAIL) ∧
    ((feed (m, e) bytes).1.rxState = RX_RECV_DATA →
      1 ≤ (feed (m, e) bytes).1.rxIndex ∧ (feed (m, e) bytes).1.rxIndex ≤ 9) ∧
    (feed (m, e) bytes).1.rxBuf.length = 11 ∧
    (∀ b i, rxWriteIndex (feed (m, e) bytes).1 b = some i → i < 11) ∧
    (∀ (m' : MotorFrame) (b : Nat), (frameSwitch m' b).rxBuf =
      match rxWriteIndex m' b with
      | some i => m'.rxBuf.set i b
      | none => m'.rxBuf) := by
  have h0 : FrameInv (dropSeq m) := ⟨hwf, Or.inl hs⟩
  have h1 := foldl_frameSwitch_inv bytes _ h0
  rw [← dropSeq_feed bytes (m, e)] at h1
  have hinv : FrameInv (feed (m, e) bytes).1 := h1
  refine ⟨rfl, rfl, by decide, ?_, ?_, hinv.1.1, ?_, frameSwitch_rxBuf⟩
  · rcases hinv.2 with h | ⟨h, -⟩ | h
    · exact Or.inl h
    · exact Or.inr (Or.inl h)
    · exact Or.inr (Or.inr h)
  · intro hr
    rcases hinv.2 with h | ⟨-, h2, h3⟩ | h
    · rw [h] at hr; exact absurd hr (by decide)
    · exact ⟨h2, h3⟩
    · rw [h] at hr; exact absurd hr (by decide)
  · intro b i hw
    exact rxWriteIndex_lt _ b i hinv hw

theorem C24_decoder_indices_in_bounds_witness :
    (feed (MotorFrame.init, Encoder.init) [0x23, 1, 2, 0x23, 4]).1.rxBuf.length = 11 :=
  (C24_decoder_indices_in_bounds MotorFrame.init Encoder.init [0x23, 1, 2, 0x23, 4]
    (by decide) (by decide)).2.2.2.2.2.1

/-- While `Kp*error`, `integral + error` and `Kp*error + Ki*integral'` fit 32 bits, the
32-bit PID step equals the exact control law. -/
theorem PID_Control_state_exact (st : PID_State) (sp r : Int)
    (hP : -2147483648 ≤ 5500 * (sp - r) ∧ 5500 * (sp - r) ≤ 2147483647)
    (hI : -2147483648 ≤ st.integral + (sp - r) ∧ st.integral + (sp - r) ≤ 2147483647)
    (hS : -2147483648 ≤ 5500 * (sp - r) + 800 * clampSym 100000 (st.integral + (sp - r)) ∧
      5500 * (sp - r) + 800 * clampSym 100000 (st.integral + (sp - r)) ≤ 2147483647) :
    PID_Control_state st sp r = PID_step_spec st sp r := by
  rw [PID_Control_state_eq]
  have he : int32_t (sp - r) = sp - r := int32_t_id _ (by omega) (by omega)
  rw [he, int32_t_id _ hI.1 hI.2, saturate_eq_clampSym _ _ (by decide),
    saturate_eq_clampSym _ _ (by decide)]
  have hc : -100000 ≤ clampSym 100000 (st.integral + (sp - r)) ∧
      clampSym 100000 (st.integral + (sp - r)) ≤ 100000 := by
    unfold clampSym; constructor <;> omega
  rw [int32_t_id _ hP.1 hP.2, int32_t_id (800 * _) (by omega) (by omega),
    int32_t_id _ hS.1 hS.2]
  simp only [zero_mul]
  rw [int32_t_id 0 (by decide) (by decide), add_zero, int32_t_id _ hS.1 hS.2]
  simp only [PID_step_spec, zero_mul, add_zero]

/-- Claim C25. Under the bounds the pipeline guarantees (ramped target in the `int16_t`
range, bias in the `int8_t` range, measured speed in the `int16_t` range, stored integral
within `±100000`), the setpoint sum, the error, `integral + error`, `Kp*error`,
`Ki*integral'`, `Kd*derivative` and their sum all lie in the signed 32-bit range, and the
32-bit `PID_Control` step on the setpoint `target + bias` equals the exact integer control
law; with the previous error in the range of an earlier error, the derivative fits
too. -/
theorem C25_pid_no_overflow_in_pipeline (g : MotorPid) (id : MotorID) (target bias measured : Int)
    (hms : g.motor_states.length = 4)
    (ht : -32768 ≤ target ∧ target ≤ 32767) (hb : -128 ≤ bias ∧ bias ≤ 127)
    (hm : -32768 ≤ measured ∧ measured ≤ 32767)
    (hint : -100000 ≤ (g.motor_states.getD id.toNat default).integral ∧
      (g.motor_states.getD id.toNat default).integral ≤ 100000) :
    (∀ x ∈ [target + bias,
        target + bias - measured,
        (g.motor_states.getD id.toNat default).integral + (target + bias - measured),
        pid_params.Kp * (target + bias - measured),
        pid_params.Ki * clampSym 100000
          ((g.motor_states.getD id.toNat default).integral + (target + bias - measured)),
        pid_params.Kd *
          (target + bias - measured - (g.motor_states.getD id.toNat default).prev_error),
        pid_params.Kp * (target + bias - measured) + pid_params.Ki * clampSym 100000
          ((g.motor_states.getD id.toNat default).integral + (target + bias - measured)) +
          pid_params.Kd *
            (target + bias - measured - (g.motor_states.getD id.toNat default).prev_error)],
      -2147483648 ≤ x ∧ x ≤ 2147483647) ∧
    ((PID_Control g id (int32_t (target + bias)) measured).1.motor_states.getD id.toNat default,
      (PID_Control g id (int32_t (target + bias)) measured).2) =
      PID_step_spec (g.motor_states.getD id.toNat default) (target + bias) measured ∧
    (-65663 ≤ (g.motor_states.getD id.toNat default).prev_error ∧
      (g.motor_states.getD id.toNat default).prev_error ≤ 65662 →
      -2147483648 ≤
        target + bias - measured - (g.motor_states.getD id.toNat default).prev_error ∧
      target + bias - measured - (g.motor_states.getD id.toNat default).prev_error
        ≤ 2147483647) := by
  have hc : -100000 ≤ clampSym 100000
      ((g.motor_states.getD id.toNat default).integral + (target + bias - measured)) ∧
      clampSym 100000
      ((g.motor_states.getD id.toNat default).integral + (target + bias - measured)) ≤ 100000 := by
    unfold clampSym; constructor <;> omega
  refine ⟨?_, ?_, ?_⟩
  · intro x hx
    simp only [List.mem_cons, List.mem_singleton, List.not_mem_nil, or_false, pid_params] at hx
    rcases hx with rfl | rfl | rfl | rfl | rfl | rfl | rfl <;> constructor <;> omega
  · rw [PID_Control_getD g id _ _ hms]
    change PID_Control_state _ _ _ = _
    rw [PID_Control_state_wrap_setpoint]
    exact PID_Control_state_exact _ _ _ (by omega) (by omega) (by omega)
  · intro hpe
    constructor <;> omega

theorem C25_pid_no_overflow_in_pipeline_witness :
    ((PID_Control MotorPid.init MotorID.MOTOR_A (int32_t (32767 + 127)) (-32768)).1.motor_states.getD
        0 default,
      (PID_Control MotorPid.init MotorID.MOTOR_A (int32_t (32767 + 127)) (-32768)).2) =
      PID_step_spec (MotorPid.init.motor_states.getD 0 default) (32767 + 127) (-32768) :=
  (C25_pid_no_overflow_in_pipeline MotorPid.init MotorID.MOTOR_A 32767 127 (-32768) (by decide)
    (by decide) (by decide) (by decide) (by decide)).2.1

end DSB1
